import Mathlib

/-!
Shallow embedding of the CTA Bus Tracker client core
(`src/lib/bus/ctaBusClient.ts` and `src/lib/bus/errorMapping.ts`).

Conventions of the embedding:
- JavaScript records (`Record<string, T>`) are modelled as association lists
  `List (String × T)`; JS objects cannot hold duplicate keys, so theorems that
  depend on key uniqueness carry a `Nodup` hypothesis on the key list.
- JS `string | number | undefined | null` values are modelled by `JsValue`.
- Nullish coalescing (`??`) is `Option.getD` / an explicit match; JS truthiness
  of an optional string is `jsStrTruthy` (absent or `""` is falsy).
- `Date.now()` instants are explicit `Int` parameters; the wall-clock ISO
  rendering of a `Date` (timezone dependent) is an oracle function parameter.
- The network is an oracle `upstream : Nat → AttemptResult` mapping the attempt
  number to what `fetch` produced on that attempt.
-/

namespace CtaBus

/-- Lookup in an association list: the value of the first pair whose key
matches, mirroring JS property access on an object (objects have unique keys). -/
def alistLookup {κ α : Type} [BEq κ] (l : List (κ × α)) (k : κ) : Option α :=
  (l.find? (fun p => p.1 == k)).map (fun p => p.2)

/-- Assignment `obj[k] = v` on an association list: overwrite in place when the
key is present (JS keeps the original insertion position), append otherwise. -/
def alistSet {κ α : Type} [BEq κ] (l : List (κ × α)) (k : κ) (v : α) : List (κ × α) :=
  if l.any (fun p => p.1 == k) then l.map (fun p => if p.1 == k then (k, v) else p)
  else l ++ [(k, v)]

/-- Removal of every pair with the given key, mirroring `Map.delete`. -/
def alistErase {κ α : Type} [BEq κ] (l : List (κ × α)) (k : κ) : List (κ × α) :=
  l.filter (fun p => !(p.1 == k))

/-- Decides whether `pat` is a prefix of `s` (over character lists). -/
def charListHasPrefix : List Char → List Char → Bool
  | [], _ => true
  | _ :: _, [] => false
  | p :: ps, c :: cs => p == c && charListHasPrefix ps cs

/-- Decides whether `pat` occurs as a contiguous sublist of `s`. -/
def charListContains (pat : List Char) : List Char → Bool
  | [] => charListHasPrefix pat []
  | c :: cs => charListHasPrefix pat (c :: cs) || charListContains pat cs

/-- Lowercases a string character by character (ASCII, as used by the source's
case-insensitive regex patterns over ASCII messages). -/
def lowerStr (s : String) : String :=
  String.mk (s.toList.map Char.toLower)

/-- Case-insensitive substring test: the model of `/literal/i.test(msg)` for a
literal (metacharacter-free) regex body. -/
def ciContains (hay pat : String) : Bool :=
  charListContains (lowerStr pat).toList (lowerStr hay).toList

/-- Test of a case-insensitive literal-alternation regex (the only regex forms
the source uses, e.g. `/limit exceeded|daily request limit/i`): the message
matches when any alternative occurs in it, case-insensitively. -/
def regexTestCI (alternatives : List String) (msg : String) : Bool :=
  alternatives.any (fun alt => ciContains msg alt)

/-- JS value of type `string | number | undefined` (plus `null`, which the
source checks for defensively). -/
inductive JsValue : Type
  | str (s : String)
  | num (n : Int)
  | undef
  | nullv
deriving DecidableEq, Repr

/-- Truthiness of an optional JS string: `undefined` and `""` are falsy. -/
def jsStrTruthy : Option String → Bool
  | none => false
  | some s => s != ""

/-- Upstream-reported error object `{code?: string, msg: string}`
(`BusRawError` in `types/cta.ts`); `msg` is `Option` because the client code
checks `!err?.msg` defensively, conflating a missing and an empty message. -/
structure BusRawError where
  code : Option String := none
  msg : Option String := none
deriving DecidableEq, Repr

/-- The `bustime-response` envelope: an optional `error` array, an optional
`tmst` timestamp, and opaque remaining fields (`rest`). -/
structure BustimePayload where
  tmst : Option String := none
  error : Option (List BusRawError) := none
  rest : List (String × String) := []
deriving DecidableEq, Repr

/-- Parsed JSON body of an upstream response: `bustimeResponse` is
`body?.["bustime-response"]` when that key holds an object, `none` when the key
is missing or not an object. -/
structure JsonBody where
  bustimeResponse : Option BustimePayload := none
deriving DecidableEq, Repr

/-- HTTP response from `fetch`: status plus parsed body (`none` models a body
on which `response.json()` rejects). -/
structure UpstreamResponse where
  status : Nat
  body : Option JsonBody := none
deriving DecidableEq, Repr

/-- Outcome of one `fetch` attempt: a settled HTTP response, an `AbortError`
from the per-attempt timeout, a network-level failure (`FetchError` / message
containing "network"), or any other thrown error. -/
inductive AttemptResult : Type
  | response (r : UpstreamResponse)
  | abortTimeout
  | networkFailure
  | otherFailure
deriving DecidableEq, Repr

/-- `response.ok`: status in the inclusive range 200–299. -/
def responseOk (status : Nat) : Bool :=
  200 ≤ status && status < 300

/-- Model of the thrown `BusClientError` (a plain value here; `status` is the
constructor's `options.status ?? 502`). -/
structure BusClientError where
  code : String
  message : String
  status : Nat := 502
  reason : Option String := none
  details : Option String := none
  endpoint : Option String := none
  params : Option (List (String × String)) := none
  rawErrors : Option (List BusRawError) := none
  sourceTimestamp : Option String := none
  cacheKey : Option String := none
  cacheTtlMs : Option Int := none
  servedFromCache : Option Bool := none
deriving DecidableEq, Repr

/-- `BusClientMeta` of a successful client result. -/
structure BusClientMeta where
  endpoint : String
  params : List (String × String)
  cacheKey : String
  cacheTtlMs : Int
  cacheExpiresAt : Option Int := none
  servedFromCache : Bool
  sourceTimestamp : Option String := none
  reason : Option String := none
deriving DecidableEq, Repr

/-- Successful result of `callBusApi`: payload plus metadata. -/
structure BusApiClientResult where
  payload : BustimePayload
  meta : BusClientMeta
deriving DecidableEq, Repr

/-- Entry of the module-level `responseCache`. -/
structure CacheEntry where
  value : BusApiClientResult
  expiresAt : Int
deriving DecidableEq, Repr

/-- `BusRequestOptions` as accepted by `callBusApi`. -/
structure BusRequestOptions where
  endpoint : String
  params : List (String × JsValue) := []
  requiredParams : List String := []
  cacheKey : Option String := none
  cacheTtlMs : Option Int := none
  timeoutMs : Option Nat := none
  maxRetries : Option Nat := none
deriving DecidableEq, Repr

/-- Environment of the client module: the static credential
`CTA_BUS_TRACKER_API_KEY` (optional in the environment) and
`CTA_BUS_RTPIDATAFEED ?? "ctabus"`. -/
structure BusClientEnv where
  apiKey : Option String := none
  rtpidatafeed : String := "ctabus"
deriving DecidableEq, Repr

/-- Module constant `DEFAULT_TIMEOUT_MS`. -/
def DEFAULT_TIMEOUT_MS : Nat := 7000

/-- Module constant `DEFAULT_MAX_RETRIES`. -/
def DEFAULT_MAX_RETRIES : Nat := 2

/-- One soft-error pattern: a case-insensitive literal-alternation regex and
the explanation attached to matching results. -/
structure SoftErrorPat where
  test : List String
  reason : String
deriving DecidableEq, Repr

/-- The `SOFT_ERROR_PATTERNS` table of `ctaBusClient.ts`. -/
def SOFT_ERROR_PATTERNS : List SoftErrorPat :=
  [ { test := ["no data found"], reason := "No data found for parameters." },
    { test := ["no service scheduled"], reason := "No service scheduled at this time." },
    { test := ["no arrival times"], reason := "No arrival times available." },
    { test := ["no predictions"], reason := "No predictions are currently available." },
    { test := ["no buses were found"], reason := "No active vehicles found." } ]

/-- `classifySoftError`: scans the upstream error objects in order and returns
the reason of the first pattern matching an error with a truthy `msg`. -/
def classifySoftError (errors : List BusRawError) : Option String :=
  errors.findSome? fun err =>
    match err.msg with
    | none => none
    | some m =>
      if m = "" then none
      else SOFT_ERROR_PATTERNS.findSome? fun pattern =>
        if regexTestCI pattern.test m then some pattern.reason else none

/-- Stringification step of `normalizeParams`: drops `undefined`, `null` and
`""`, converts numbers with `toString`, keeps other strings unchanged. -/
def stringifyParam : JsValue → Option String
  | .undef => none
  | .nullv => none
  | .str s => if s = "" then none else some s
  | .num n => some (toString n)

/-- `normalizeParams`: builds the normalized string record (entries with
`undefined`/`null`/`""` values are skipped). -/
def normalizeParams (params : List (String × JsValue)) : List (String × String) :=
  params.filterMap (fun kv => (stringifyParam kv.2).map (fun s => (kv.1, s)))

/-- UTF-8 bytes of a character, as natural numbers. -/
def utf8Bytes (c : Char) : List Nat :=
  let n := c.toNat
  if n < 128 then [n]
  else if n < 2048 then [192 + n / 64, 128 + n % 64]
  else if n < 65536 then [224 + n / 4096, 128 + (n / 64) % 64, 128 + n % 64]
  else [240 + n / 262144, 128 + (n / 4096) % 64, 128 + (n / 64) % 64, 128 + n % 64]

/-- Uppercase hexadecimal digit of a value below 16. -/
def hexDigit (n : Nat) : Char :=
  if n < 10 then Char.ofNat (48 + n) else Char.ofNat (55 + n)

/-- Characters `encodeURIComponent` leaves unescaped. -/
def isUnescapedUriChar (c : Char) : Bool :=
  ('A' ≤ c && c ≤ 'Z') || ('a' ≤ c && c ≤ 'z') || ('0' ≤ c && c ≤ '9') ||
  c == '-' || c == '_' || c == '.' || c == '!' || c == '~' || c == '*' ||
  c == '\'' || c == '(' || c == ')'

/-- Model of JS `encodeURIComponent`: unescaped characters pass through, all
others are percent-encoded byte by byte (UTF-8, uppercase hex). -/
def encodeURIComponent (s : String) : String :=
  String.mk (s.toList.foldr
    (fun c acc =>
      if isUnescapedUriChar c then c :: acc
      else ((utf8Bytes c).map (fun b => ['%', hexDigit (b / 16), hexDigit (b % 16)])).flatten ++ acc)
    [])

/-- Key list of the serialized record, sorted ascending as by `Array.sort()`
(any correct sort yields the same list on the duplicate-free keys of a JS
object). -/
def sortedKeys (params : List (String × String)) : List String :=
  List.insertionSort (fun a b => a ≤ b) (params.map (fun p => p.1))

/-- `serializeParams`: sorted keys, each rendered `key=encodeURIComponent(value)`
and joined with `&`. -/
def serializeParams (params : List (String × String)) : String :=
  String.intercalate "&"
    ((sortedKeys params).map (fun key => key ++ "=" ++ encodeURIComponent ((alistLookup params key).getD "")))

/-- Cache key derived from endpoint and serialized parameters. -/
def derivedCacheKey (endpoint : String) (params : List (String × String)) : String :=
  let serialized := serializeParams params
  if serialized.length > 0 then endpoint ++ "?" ++ serialized else endpoint

/-- `computeCacheKey`: a truthy supplied key wins, otherwise the derived key. -/
def computeCacheKey (endpoint : String) (params : List (String × String))
    (suppliedCacheKey : Option String) : String :=
  if jsStrTruthy suppliedCacheKey then suppliedCacheKey.getD ""
  else derivedCacheKey endpoint params

/-- `parseTimestampToIso`, with `ctaDateToIso` standing for
`parseCtaDate` + `Date.toISOString` (wall-clock and timezone dependent). -/
def parseTimestampToIso (ctaDateToIso : String → Option String) :
    Option String → Option String
  | none => none
  | some s => if s = "" then none else ctaDateToIso s

/-- `toCachedResult`: replays a cache entry with `servedFromCache` forced on. -/
def toCachedResult (entry : CacheEntry) : BusApiClientResult :=
  { payload := entry.value.payload,
    meta := { entry.value.meta with servedFromCache := true } }

/-- Error thrown for a non-ok HTTP status: `CTA_BUS_HTTP_ERROR` carrying the
upstream status (`options.status = response.status`). -/
def httpStatusError (status : Nat) : BusClientError :=
  { code := "CTA_BUS_HTTP_ERROR",
    message := "CTA bus tracker returned " ++ toString status ++ ".",
    status := status }

/-- Error raised when the service cannot be reached:
`CTA_BUS_REQUEST_FAILED` with the default 502 status. -/
def requestFailedError : BusClientError :=
  { code := "CTA_BUS_REQUEST_FAILED",
    message := "Failed to reach the CTA Bus Tracker service.",
    status := 502 }

/-- Loop body of `fetchWithRetry`, returning the number of attempts performed
together with the settled response or the thrown error.

The source's `while (true)` loop is bounded because every `continue` requires
`attempt <= maxRetries`; `fuel` makes that bound structural. Entered with
`fuel = maxRetries + 1` the fuel never reaches the zero arm of a taken branch
(each such arm repeats the adjacent non-retry outcome, so exhausted fuel would
behave like exhausted retries anyway).

Note the control flow of the source: the `throw` for a non-ok response sits
inside the `try`, so it lands in the function's own `catch`, where
`error instanceof BusClientError` makes it retryable again. The nested
conditionals below mirror exactly that: for a non-ok response the
`status >= 500` test is followed by the catch-block retry test. -/
def fetchWithRetryGo (upstream : Nat → AttemptResult) (timeoutMs maxRetries : Nat)
    (attempt0 fuel : Nat) : Nat × Except BusClientError UpstreamResponse :=
    let attempt := attempt0 + 1
    match upstream attempt with
    | .response r =>
      if responseOk r.status then (attempt, .ok r)
      else
        if attempt ≤ maxRetries && 500 ≤ r.status then
          match fuel with
          | f + 1 => fetchWithRetryGo upstream timeoutMs maxRetries attempt f
          | 0 => (attempt, .error (httpStatusError r.status))
        else
          -- the thrown `CTA_BUS_HTTP_ERROR` is caught by the catch block:
          -- not an abort, not a network error, but `instanceof BusClientError`
          if attempt ≤ maxRetries then
            match fuel with
            | f + 1 => fetchWithRetryGo upstream timeoutMs maxRetries attempt f
            | 0 => (attempt, .error (httpStatusError r.status))
          else (attempt, .error (httpStatusError r.status))
    | .abortTimeout =>
      if attempt ≤ maxRetries then
        match fuel with
        | f + 1 => fetchWithRetryGo upstream timeoutMs maxRetries attempt f
        | 0 => (attempt, .error requestFailedError)
      else (attempt, .error requestFailedError)
    | .networkFailure =>
      if attempt ≤ maxRetries then
        match fuel with
        | f + 1 => fetchWithRetryGo upstream timeoutMs maxRetries attempt f
        | 0 => (attempt, .error requestFailedError)
      else (attempt, .error requestFailedError)
    | .otherFailure => (attempt, .error requestFailedError)

/-- `fetchWithRetry(url, timeoutMs, maxRetries)`: runs the attempt loop from
attempt number 1. -/
def fetchWithRetry (upstream : Nat → AttemptResult) (timeoutMs maxRetries : Nat) :
    Nat × Except BusClientError UpstreamResponse :=
  fetchWithRetryGo upstream timeoutMs maxRetries 0 (maxRetries + 1)

/-- Error thrown by `ensureApiKey` when the credential is not configured. -/
def configMissingError : BusClientError :=
  { code := "CTA_BUS_CONFIG_MISSING",
    message := "CTA bus tracker API key is not configured.",
    status := 500 }

/-- Missing-required-parameter test: `params[key]` is `undefined`, `null` or `""`. -/
def requiredParamMissing (params : List (String × JsValue)) (key : String) : Bool :=
  match alistLookup params key with
  | none => true
  | some .undef => true
  | some .nullv => true
  | some (.str s) => s == ""
  | some (.num _) => false

/-- Error thrown for a missing required parameter. -/
def badRequestError (options : BusRequestOptions) (key : String) : BusClientError :=
  { code := "CTA_BUS_BAD_REQUEST",
    message := "Missing required parameter: " ++ key,
    status := 400,
    endpoint := some options.endpoint,
    params := some (normalizeParams options.params) }

/-- Normalized parameters with the module-level injections applied: a default
`rtpidatafeed` when absent and the feed env var is truthy, and `format=json`
when absent. -/
def resolvedParams (env : BusClientEnv) (options : BusRequestOptions) :
    List (String × String) :=
  let normalized := normalizeParams options.params
  let withFeed :=
    if !jsStrTruthy (alistLookup normalized "rtpidatafeed") && env.rtpidatafeed != "" then
      alistSet normalized "rtpidatafeed" env.rtpidatafeed
    else normalized
  if !jsStrTruthy (alistLookup withFeed "format") then alistSet withFeed "format" "json"
  else withFeed

/-- Cache key the call will use: `computeCacheKey` over the resolved
parameters, honouring a truthy caller-supplied key. -/
def requestKey (env : BusClientEnv) (options : BusRequestOptions) : String :=
  computeCacheKey options.endpoint (resolvedParams env options) options.cacheKey

/-- Query parameters of the outgoing URL: the resolved parameters with the
credential injected and the output format forced to `json`. -/
def requestUrlParams (env : BusClientEnv) (options : BusRequestOptions) :
    List (String × String) :=
  alistSet (alistSet (resolvedParams env options) "key" (env.apiKey.getD "")) "format" "json"

/-- Error thrown when `response.json()` rejects. -/
def invalidResponseError (options : BusRequestOptions) (normalizedParams : List (String × String)) :
    BusClientError :=
  { code := "CTA_BUS_INVALID_RESPONSE",
    message := "CTA bus tracker returned invalid JSON.",
    status := 502,
    endpoint := some options.endpoint,
    params := some normalizedParams }

/-- Error thrown when `body["bustime-response"]` is missing or not an object. -/
def unexpectedShapeError (options : BusRequestOptions) (normalizedParams : List (String × String)) :
    BusClientError :=
  { code := "CTA_BUS_UNEXPECTED_SHAPE",
    message := "Unexpected CTA bus tracker response shape.",
    status := 502,
    endpoint := some options.endpoint,
    params := some normalizedParams }

/-- Error thrown for a genuine (non-soft) upstream error array: code and
message come from the first error object, with fallbacks under `??`. -/
def upstreamApiError (options : BusRequestOptions) (normalizedParams : List (String × String))
    (errors : List BusRawError) (sourceTimestamp : Option String) : BusClientError :=
  { code := ((errors.head?.bind (fun e => e.code)).getD "CTA_BUS_API_ERROR"),
    message := ((errors.head?.bind (fun e => e.msg)).getD "CTA bus tracker returned an error."),
    status := 502,
    endpoint := some options.endpoint,
    params := some normalizedParams,
    rawErrors := some errors,
    sourceTimestamp := sourceTimestamp }

/-- Fresh-entry cache lookup of `callBusApi`: an entry is returned only when
caching is on and its `expiresAt` lies strictly in the future; an expired
entry is ignored in place (lazy expiry, no sweep). -/
def cachedFreshHit (cacheTtlMs : Int) (cache : List (String × CacheEntry))
    (cacheKey : String) (now : Int) : Option CacheEntry :=
  if cacheTtlMs > 0 then
    match alistLookup cache cacheKey with
    | some cached => if cached.expiresAt > now then some cached else none
    | none => none
  else none

/-- The leader path of `callBusApi` (the body of the async IIFE): fetch with
retry, parse, classify, and build the client result. Returns the settled
result together with the attempt count of the launched fetch. -/
def leaderFetch (ctaDateToIso : String → Option String) (options : BusRequestOptions)
    (normalizedParams : List (String × String)) (cacheKey : String) (cacheTtlMs : Int)
    (timeoutMs maxRetries : Nat) (nowSettle : Int) (upstream : Nat → AttemptResult) :
    Except BusClientError BusApiClientResult × Nat :=
  let fetched := fetchWithRetry upstream timeoutMs maxRetries
  let attempts := fetched.1
  match fetched.2 with
  | .error e => (.error e, attempts)
  | .ok response =>
    match response.body with
    | none => (.error (invalidResponseError options normalizedParams), attempts)
    | some body =>
      match body.bustimeResponse with
      | none => (.error (unexpectedShapeError options normalizedParams), attempts)
      | some receivedPayload =>
        let sourceTimestamp := parseTimestampToIso ctaDateToIso receivedPayload.tmst
        let softStep : Except BusClientError (BustimePayload × Option String) :=
          match receivedPayload.error with
          | some errorList =>
            if errorList.length > 0 then
              match classifySoftError errorList with
              | none => .error (upstreamApiError options normalizedParams errorList sourceTimestamp)
              | some reason => .ok ({ receivedPayload with error := none }, some reason)
            else .ok (receivedPayload, none)
          | none => .ok (receivedPayload, none)
        match softStep with
        | .error e => (.error e, attempts)
        | .ok (payload, reason) =>
          (.ok { payload := payload,
                 meta := { endpoint := options.endpoint,
                           params := normalizedParams,
                           cacheKey := cacheKey,
                           cacheTtlMs := cacheTtlMs,
                           cacheExpiresAt := if cacheTtlMs > 0 then some (nowSettle + cacheTtlMs) else none,
                           servedFromCache := false,
                           sourceTimestamp := sourceTimestamp,
                           reason := reason } },
           attempts)

instance {ε α : Type} [DecidableEq ε] [DecidableEq α] : DecidableEq (Except ε α) := fun x y =>
  match x, y with
  | .ok a, .ok b =>
    if h : a = b then isTrue (by rw [h]) else isFalse (by intro hc; cases hc; exact h rfl)
  | .error a, .error b =>
    if h : a = b then isTrue (by rw [h]) else isFalse (by intro hc; cases hc; exact h rfl)
  | .ok _, .error _ => isFalse (by intro hc; cases hc)
  | .error _, .ok _ => isFalse (by intro hc; cases hc)

/-- Result component of one `callBusApi` invocation: a settled own outcome, or
a join onto the promise already in flight for the key. -/
inductive CallResult : Type
  | completed (r : Except BusClientError BusApiClientResult)
  | joinedInFlight (key : String)
deriving DecidableEq, Repr

/-- Full observable outcome of one `callBusApi` invocation in the sequential
model: the returned/thrown value, the cache afterwards, how many upstream
fetch sequences were launched, how many attempts that fetch performed, and the
query parameters of the outgoing URL when a fetch was launched. -/
structure CallOutcome where
  result : CallResult
  cacheAfter : List (String × CacheEntry)
  fetchLaunches : Nat
  attempts : Nat
  urlParams : Option (List (String × String)) := none
deriving DecidableEq, Repr

/-- Sequential model of `callBusApi` after the `ensureApiKey` guard: required
parameter validation, cache lookup, in-flight coalescing check, then the
leader fetch with the conditional cache write. (`nowCheck` and `nowSettle` are
the `Date.now()` readings at the cache check and at settlement; the source
reads the clock twice more within the same synchronous settlement block, which
this model collapses into `nowSettle`.) -/
def callBusApiGo (env : BusClientEnv) (ctaDateToIso : String → Option String)
    (options : BusRequestOptions) (cache : List (String × CacheEntry))
    (inFlightKeys : List String) (nowCheck nowSettle : Int)
    (upstream : Nat → AttemptResult) : CallOutcome :=
  match options.requiredParams.find? (fun key => requiredParamMissing options.params key) with
  | some key =>
    { result := .completed (.error (badRequestError options key)),
      cacheAfter := cache, fetchLaunches := 0, attempts := 0 }
  | none =>
    let normalizedParams := resolvedParams env options
    let cacheKey := requestKey env options
    let cacheTtlMs := options.cacheTtlMs.getD 0
    let timeoutMs := options.timeoutMs.getD DEFAULT_TIMEOUT_MS
    let maxRetries := options.maxRetries.getD DEFAULT_MAX_RETRIES
    match cachedFreshHit cacheTtlMs cache cacheKey nowCheck with
    | some cached =>
      { result := .completed (.ok (toCachedResult cached)),
        cacheAfter := cache, fetchLaunches := 0, attempts := 0 }
    | none =>
      if inFlightKeys.contains cacheKey then
        { result := .joinedInFlight cacheKey,
          cacheAfter := cache, fetchLaunches := 0, attempts := 0 }
      else
        let fetched := leaderFetch ctaDateToIso options normalizedParams cacheKey cacheTtlMs
          timeoutMs maxRetries nowSettle upstream
        let cacheAfter :=
          match fetched.1 with
          | .ok clientResult =>
            if cacheTtlMs > 0 then
              alistSet cache cacheKey
                { value := clientResult, expiresAt := nowSettle + cacheTtlMs }
            else cache
          | .error _ => cache
        { result := .completed fetched.1, cacheAfter := cacheAfter,
          fetchLaunches := 1, attempts := fetched.2 }

/-- Sequential model of `callBusApi`: the `ensureApiKey` guard, then
`callBusApiGo`, recording the outgoing URL's query parameters (the only place
the credential flows) whenever a fetch was launched. -/
def callBusApi (env : BusClientEnv) (ctaDateToIso : String → Option String)
    (options : BusRequestOptions) (cache : List (String × CacheEntry))
    (inFlightKeys : List String) (nowCheck nowSettle : Int)
    (upstream : Nat → AttemptResult) : CallOutcome :=
  if !jsStrTruthy env.apiKey then
    { result := .completed (.error configMissingError),
      cacheAfter := cache, fetchLaunches := 0, attempts := 0 }
  else
    let go := callBusApiGo env ctaDateToIso options cache inFlightKeys nowCheck nowSettle upstream
    { go with
      urlParams := if go.fetchLaunches > 0 then some (requestUrlParams env options) else none }

/-- Context record passed to `mapBusApiError` (`ErrorContext` in
`errorMapping.ts`). -/
structure ErrorContext where
  endpoint : String
  params : List (String × JsValue) := []
  cacheKey : Option String := none
  cacheTtlMs : Option Int := none
  servedFromCache : Option Bool := none
  sourceUpdatedAt : Option String := none
  reason : Option String := none
  status : Option Nat := none
deriving DecidableEq, Repr

/-- One entry of `CTA_ERROR_MAPPINGS`: regex, stable code, optional reason and
optional status. -/
structure ErrorMapping where
  test : List String
  code : String
  reason : Option String := none
  status : Option Nat := none
deriving DecidableEq, Repr

/-- The `CTA_ERROR_MAPPINGS` table of `errorMapping.ts`. -/
def CTA_ERROR_MAPPINGS : List ErrorMapping :=
  [ { test := ["no service scheduled"], code := "CTA_BUS_NO_SERVICE",
      reason := some "No service scheduled at this time.", status := some 200 },
    { test := ["no data found"], code := "CTA_BUS_NO_DATA",
      reason := some "CTA reported no results for the provided parameters.", status := some 200 },
    { test := ["no arrival times"], code := "CTA_BUS_NO_ARRIVALS",
      reason := some "No upcoming arrivals were returned.", status := some 200 },
    { test := ["no predictions"], code := "CTA_BUS_NO_PREDICTIONS",
      reason := some "No live predictions are available right now.", status := some 200 },
    { test := ["invalid param"], code := "CTA_BUS_INVALID_PARAMETER",
      reason := some "CTA rejected one or more parameters.", status := some 400 },
    { test := ["limit exceeded", "daily request limit"], code := "CTA_BUS_RATE_LIMIT",
      reason := some "CTA rate limit exceeded.", status := some 429 },
    { test := ["api key"], code := "CTA_BUS_AUTH_ERROR",
      reason := some "CTA bus tracker API key rejected.", status := some 401 } ]

/-- `sanitizeParams`: drops `undefined`/`null` values, passes numbers and
strings through unchanged. -/
def sanitizeParams (params : List (String × JsValue)) : List (String × JsValue) :=
  params.filter (fun kv =>
    match kv.2 with
    | .undef => false
    | .nullv => false
    | _ => true)

/-- Caller-facing error detail `{code, message, details?}`. -/
structure BusErrorDetail where
  code : String
  message : String
  details : Option String := none
deriving DecidableEq, Repr

/-- `normalizeErrorDetail`: rebuilds the detail from its three fields. -/
def normalizeErrorDetail (detail : BusErrorDetail) : BusErrorDetail :=
  { code := detail.code, message := detail.message, details := detail.details }

/-- `BusApiMeta` of the uniform caller-facing envelope (`types/cta.ts`). -/
structure BusApiMeta where
  sourceUpdatedAt : Option String := none
  queriedAt : String
  cacheTtlMs : Option Int := none
  cacheExpiresAt : Option String := none
  cacheKey : Option String := none
  ctaEndpoint : String
  paramsUsed : List (String × JsValue)
  reason : Option String := none
  status : Option Nat := none
  servedFromCache : Option Bool := none
deriving DecidableEq, Repr

/-- Caller-facing error envelope `{data: null, error, meta}`. -/
structure BusApiError where
  error : BusErrorDetail
  meta : BusApiMeta
deriving DecidableEq, Repr

/-- `deriveCodeFromMessage`: uppercase, collapse runs of non-alphanumerics to
single underscores, trim leading/trailing underscores, truncate to 60
characters, defaulting to `CTA_BUS_ERROR` when empty. -/
def isUpperAlnum (c : Char) : Bool :=
  ('A' ≤ c && c ≤ 'Z') || ('0' ≤ c && c ≤ '9')

/-- Replacement of every maximal run of non-`[A-Z0-9]` characters by one
underscore (`inRun` records whether the previous character was in such a run). -/
def collapseNonAlnumGo : Bool → List Char → List Char
  | _, [] => []
  | inRun, c :: cs =>
    if isUpperAlnum c then c :: collapseNonAlnumGo false cs
    else if inRun then collapseNonAlnumGo true cs
    else '_' :: collapseNonAlnumGo true cs

/-- Removal of leading and trailing underscores (the `^_+|_+$` replacement). -/
def trimUnderscores (l : List Char) : List Char :=
  ((l.dropWhile (fun c => c == '_')).reverse.dropWhile (fun c => c == '_')).reverse

/-- `deriveCodeFromMessage` of `errorMapping.ts`. -/
def deriveCodeFromMessage (message : String) : String :=
  let cleaned := String.mk
    ((trimUnderscores (collapseNonAlnumGo false (message.toList.map Char.toUpper))).take 60)
  if cleaned = "" then "CTA_BUS_ERROR" else cleaned

/-- Scan of `deriveFromRawErrors`: the first raw error with a truthy message
matching some mapping, paired with the first such mapping. -/
def findMappedError (errors : List BusRawError) :
    Option (BusRawError × ErrorMapping) :=
  errors.findSome? fun raw =>
    match raw.msg with
    | none => none
    | some m =>
      if m = "" then none
      else CTA_ERROR_MAPPINGS.findSome? fun mapping =>
        if regexTestCI mapping.test m then some (raw, mapping) else none

/-- Partial detail extracted from raw upstream errors
(`Partial<BusErrorDetail> & {reason?, status?}`). -/
structure RawDetail where
  code : Option String := none
  message : Option String := none
  reason : Option String := none
  status : Option Nat := none
deriving DecidableEq, Repr

/-- `deriveFromRawErrors`: a matching mapping wins; otherwise code and message
come from the first raw error when it has a truthy message; otherwise nothing. -/
def deriveFromRawErrors (errors : List BusRawError) : RawDetail :=
  match findMappedError errors with
  | some (raw, mapping) =>
    { code := some mapping.code, message := raw.msg,
      reason := mapping.reason, status := mapping.status }
  | none =>
    match errors.head? with
    | some first =>
      if jsStrTruthy first.msg then
        { code := some (first.code.getD (deriveCodeFromMessage (first.msg.getD ""))),
          message := first.msg }
      else {}
    | none => {}

/-- Thrown JS value as seen by `mapBusApiError`: a `BusClientError`, some other
`Error` (only its message is inspected), or a non-`Error` value. -/
inductive JsError : Type
  | busClient (e : BusClientError)
  | generic (message : String)
  | nonError
deriving DecidableEq, Repr

/-- Truthiness of an optional JS number: `undefined` and `0` are falsy. -/
def jsNumTruthy : Option Nat → Bool
  | none => false
  | some n => n != 0

/-- `mapBusApiError`: builds the uniform error envelope. `queriedAt` is the
ISO rendering of the call instant and `isoOfNowPlus ttl` stands for
`new Date(Date.now() + ttl).toISOString()` (both wall-clock oracles). -/
def mapBusApiError (queriedAt : String) (isoOfNowPlus : Int → String)
    (error : JsError) (context : ErrorContext) : BusApiError :=
  let paramsUsed := sanitizeParams context.params
  let detail0 : BusErrorDetail :=
    { code := "CTA_BUS_UNKNOWN_ERROR",
      message := "Unexpected error contacting CTA Bus Tracker." }
  let meta0 : BusApiMeta :=
    { sourceUpdatedAt := context.sourceUpdatedAt,
      queriedAt := queriedAt,
      cacheTtlMs := context.cacheTtlMs,
      cacheExpiresAt :=
        match context.cacheTtlMs with
        | some ttl => if ttl != 0 && ttl > 0 then some (isoOfNowPlus ttl) else none
        | none => none,
      cacheKey := context.cacheKey,
      ctaEndpoint := context.endpoint,
      paramsUsed := paramsUsed,
      reason := context.reason,
      status := some (context.status.getD 502),
      servedFromCache := some (context.servedFromCache.getD false) }
  match error with
  | .busClient e =>
    let detail1 := normalizeErrorDetail
      { code := e.code, message := e.message, details := e.details }
    let stepped :=
      match e.rawErrors with
      | some rawList =>
        if rawList.length > 0 then
          let rawDetail := deriveFromRawErrors rawList
          let d := { detail1 with
            code := if jsStrTruthy rawDetail.code then rawDetail.code.getD "" else detail1.code,
            message := if jsStrTruthy rawDetail.message then rawDetail.message.getD "" else detail1.message }
          let m := { meta0 with
            reason := if jsStrTruthy rawDetail.reason then rawDetail.reason else meta0.reason,
            status := if jsNumTruthy rawDetail.status then rawDetail.status else meta0.status }
          (d, m)
        else (detail1, meta0)
      | none => (detail1, meta0)
    let d := stepped.1
    let m1 := stepped.2
    let m2 := { m1 with
      sourceUpdatedAt := match m1.sourceUpdatedAt with
        | some v => some v
        | none => e.sourceTimestamp,
      reason := match m1.reason with
        | some v => some v
        | none => e.reason,
      status := match m1.status with
        | some v => some v
        | none => some e.status,
      servedFromCache := match e.servedFromCache with
        | some v => some v
        | none => m1.servedFromCache }
    { error := d, meta := m2 }
  | .generic message =>
    { error := normalizeErrorDetail
        { code := deriveCodeFromMessage message, message := message },
      meta := meta0 }
  | .nonError => { error := detail0, meta := meta0 }

/-!
Single-flight machine.

The event-loop model of the `inFlightRequests` coordination in `callBusApi`
(lines 289–363): JavaScript runs each synchronous block atomically, so the
check `inFlightRequests.has(cacheKey)` / `get` / `set` sequence of one arriving
caller is one atomic step, and the `.finally` deregistration plus the delivery
of the settled value to every caller awaiting the shared promise is another.
Fetches are named by fresh identifiers; `launched` logs every upstream fetch
ever started, `joined` records which fetch's promise each caller awaits,
`settled` logs fetch settlements and `results` the value delivered to each
caller. Settlement outcomes are the settlement values of the shared promise. -/
abbrev FetchOutcome := Except BusClientError BusApiClientResult

/-- Events of the single-flight machine: a caller arrives at `callBusApi` with
a cache key (cache misses only — hits return before the registry), or the
in-flight fetch for a key settles with an outcome. -/
inductive SfEvent : Type
  | arrive (caller : Nat) (key : String)
  | settle (key : String) (outcome : FetchOutcome)
deriving DecidableEq, Repr

/-- State of the single-flight machine. -/
structure SfState where
  inFlightRequests : List (String × Nat) := []
  nextFetchId : Nat := 0
  launched : List (Nat × String) := []
  joined : List (Nat × Nat) := []
  settled : List (Nat × FetchOutcome) := []
  results : List (Nat × FetchOutcome) := []
deriving DecidableEq, Repr

/-- One atomic step. An arriving caller (with a fresh caller id) joins the
registered promise when one exists, otherwise launches a fresh fetch,
registers it, and joins it. A settlement removes the registry entry (the
`.finally` block) and delivers the outcome to every caller joined to that
fetch. -/
def sfStep (s : SfState) : SfEvent → SfState
  | .arrive caller key =>
    if (s.joined.map (fun p => p.1)).contains caller then s
    else
      match alistLookup s.inFlightRequests key with
      | some fid => { s with joined := s.joined ++ [(caller, fid)] }
      | none =>
        let fid := s.nextFetchId
        { s with
          inFlightRequests := s.inFlightRequests ++ [(key, fid)],
          nextFetchId := fid + 1,
          launched := s.launched ++ [(fid, key)],
          joined := s.joined ++ [(caller, fid)] }
  | .settle key outcome =>
    match alistLookup s.inFlightRequests key with
    | some fid =>
      { s with
        inFlightRequests := alistErase s.inFlightRequests key,
        settled := s.settled ++ [(fid, outcome)],
        results := s.results ++ (s.joined.filter (fun p => p.2 == fid)).map (fun p => (p.1, outcome)) }
    | none => s

/-- Run of the machine from the empty initial state. -/
def sfRun (events : List SfEvent) : SfState :=
  events.foldl sfStep {}

/-! Helper lemmas about association lists. -/

theorem alistLookup_mem {κ α : Type} [BEq κ] [LawfulBEq κ] {l : List (κ × α)} {k : κ} {v : α}
    (h : alistLookup l k = some v) : (k, v) ∈ l := by
  induction l with
  | nil => simp [alistLookup] at h
  | cons p t ih =>
    by_cases hk : p.1 == k
    · simp [alistLookup, List.find?, hk] at h
      simp [← h, ← (beq_iff_eq ..).mp hk]
    · simp only [alistLookup, List.find?, hk] at h
      exact List.mem_cons_of_mem p (ih h)

theorem alistLookup_eq_none {κ α : Type} [BEq κ] [LawfulBEq κ] {l : List (κ × α)} {k : κ} :
    alistLookup l k = none ↔ k ∉ l.map Prod.fst := by
  constructor
  · intro h hmem
    obtain ⟨p, hp, hfst⟩ := List.mem_map.mp hmem
    rw [alistLookup] at h
    cases hf : List.find? (fun q => q.1 == k) l with
    | some q => rw [hf] at h; simp at h
    | none =>
      rw [List.find?_eq_none] at hf
      exact absurd (by simp [hfst]) (hf p hp)
  · intro h
    rw [alistLookup]
    cases hf : List.find? (fun q => q.1 == k) l with
    | some q =>
      have hq := List.find?_some hf
      have hqm := List.mem_of_find?_eq_some hf
      simp only [beq_iff_eq] at hq
      exact absurd (List.mem_map.mpr ⟨q, hqm, hq⟩) h
    | none => rfl

theorem mem_alistLookup {κ α : Type} [BEq κ] [LawfulBEq κ] {l : List (κ × α)} {k : κ} {v : α}
    (hmem : (k, v) ∈ l) (hnd : (l.map Prod.fst).Nodup) : alistLookup l k = some v := by
  induction l with
  | nil => simp at hmem
  | cons p t ih =>
    simp only [List.map_cons, List.nodup_cons] at hnd
    rcases List.mem_cons.mp hmem with hhd | htl
    · simp [alistLookup, List.find?, ← hhd]
    · have hk : (p.1 == k) = false := by
        refine beq_eq_false_iff_ne.mpr ?_
        intro he
        exact hnd.1 (he ▸ List.mem_map_of_mem Prod.fst htl)
      simp only [alistLookup, List.find?, hk]
      exact ih htl hnd.2

theorem mem_alistErase {κ α : Type} [BEq κ] [LawfulBEq κ] {l : List (κ × α)} {k k' : κ} {v : α} :
    (k', v) ∈ alistErase l k ↔ (k', v) ∈ l ∧ k' ≠ k := by
  simp [alistErase, List.mem_filter]

theorem alistLookup_alistErase {κ α : Type} [BEq κ] [LawfulBEq κ] (l : List (κ × α)) (k : κ) :
    alistLookup (alistErase l k) k = none := by
  rw [alistLookup_eq_none]
  intro hmem
  obtain ⟨p, hp, hfst⟩ := List.mem_map.mp hmem
  rcases p with ⟨k', v⟩
  exact ((mem_alistErase.mp hp).2) hfst

theorem alistErase_map_fst_sublist {κ α : Type} [BEq κ] (l : List (κ × α)) (k : κ) :
    ((alistErase l k).map Prod.fst).Sublist (l.map Prod.fst) :=
  (List.filter_sublist l).map Prod.fst

theorem alistSet_map_fst_of_present {κ α : Type} [BEq κ] [LawfulBEq κ]
    {l : List (κ × α)} {k : κ} (hp : l.any (fun p => p.1 == k) = true) (v : α) :
    (alistSet l k v).map Prod.fst = l.map Prod.fst := by
  rw [alistSet, hp]
  simp only [if_true, List.map_map]
  refine List.map_congr_left (fun p _ => ?_)
  by_cases hk : p.1 == k
  · simp [hk, (beq_iff_eq ..).mp hk]
  · simp [hk]

theorem alistSet_map_fst_of_absent {κ α : Type} [BEq κ]
    {l : List (κ × α)} {k : κ} (hp : l.any (fun p => p.1 == k) = false) (v : α) :
    (alistSet l k v).map Prod.fst = l.map Prod.fst ++ [k] := by
  rw [alistSet, hp]
  simp

theorem any_of_perm {α : Type} {l₁ l₂ : List α} (h : l₁.Perm l₂) (p : α → Bool) :
    l₁.any p = l₂.any p := by
  cases hb : l₂.any p
  · rw [List.any_eq_false] at hb ⊢
    exact fun x hx => hb x (h.mem_iff.mp hx)
  · rw [List.any_eq_true] at hb ⊢
    obtain ⟨x, hx, hpx⟩ := hb
    exact ⟨x, h.mem_iff.mpr hx, hpx⟩

theorem alistLookup_of_perm {κ α : Type} [BEq κ] [LawfulBEq κ] {l₁ l₂ : List (κ × α)}
    (h : l₁.Perm l₂) (hnd : (l₁.map Prod.fst).Nodup) (k : κ) :
    alistLookup l₁ k = alistLookup l₂ k := by
  cases hv : alistLookup l₁ k with
  | some v =>
    have hnd₂ : (l₂.map Prod.fst).Nodup := ((h.map Prod.fst).nodup_iff).mp hnd
    exact (mem_alistLookup (h.mem_iff.mp (alistLookup_mem hv)) hnd₂).symm
  | none =>
    rw [alistLookup_eq_none] at hv
    have h₂ : alistLookup l₂ k = none :=
      alistLookup_eq_none.mpr (fun hmem => hv ((h.map Prod.fst).mem_iff.mpr hmem))
    rw [h₂]

theorem alistSet_perm {κ α : Type} [BEq κ] [LawfulBEq κ] {l₁ l₂ : List (κ × α)}
    (h : l₁.Perm l₂) (k : κ) (v : α) : (alistSet l₁ k v).Perm (alistSet l₂ k v) := by
  have hany := any_of_perm h (fun p => p.1 == k)
  cases hb : l₁.any (fun p => p.1 == k)
  · have e₁ : alistSet l₁ k v = l₁ ++ [(k, v)] := by rw [alistSet, hb]; simp
    have e₂ : alistSet l₂ k v = l₂ ++ [(k, v)] := by rw [alistSet, ← hany, hb]; simp
    rw [e₁, e₂]
    exact h.append_right _
  · have e₁ : alistSet l₁ k v = l₁.map (fun p => if p.1 == k then (k, v) else p) := by
      rw [alistSet, hb]; simp
    have e₂ : alistSet l₂ k v = l₂.map (fun p => if p.1 == k then (k, v) else p) := by
      rw [alistSet, ← hany, hb]; simp
    rw [e₁, e₂]
    exact h.map _

theorem alistSet_keys_nodup {κ α : Type} [BEq κ] [LawfulBEq κ] {l : List (κ × α)}
    (hnd : (l.map Prod.fst).Nodup) (k : κ) (v : α) :
    ((alistSet l k v).map Prod.fst).Nodup := by
  cases hb : l.any (fun p => p.1 == k)
  · rw [alistSet_map_fst_of_absent hb]
    have hk : k ∉ l.map Prod.fst := by
      intro hmem
      obtain ⟨p, hp, hfst⟩ := List.mem_map.mp hmem
      rw [List.any_eq_false] at hb
      have hc := hb p hp
      rw [hfst] at hc
      simp at hc
    simp [List.nodup_append, hk, hnd]
  · rw [alistSet_map_fst_of_present hb]
    exact hnd

/-! Lemmas about the retry engine. -/

theorem fetchWithRetryGo_response (upstream : Nat → AttemptResult) (t m a fuel : Nat)
    (r : UpstreamResponse) (hup : upstream (a + 1) = .response r) :
    fetchWithRetryGo upstream t m a fuel =
      (if responseOk r.status then ((a + 1 : Nat), (.ok r : Except BusClientError UpstreamResponse))
       else if a + 1 ≤ m && 500 ≤ r.status then
         (match fuel with
          | f + 1 => fetchWithRetryGo upstream t m (a + 1) f
          | 0 => (a + 1, .error (httpStatusError r.status)))
       else if a + 1 ≤ m then
         (match fuel with
          | f + 1 => fetchWithRetryGo upstream t m (a + 1) f
          | 0 => (a + 1, .error (httpStatusError r.status)))
       else (a + 1, .error (httpStatusError r.status))) := by
  rw [fetchWithRetryGo.eq_def]
  simp only [hup]

theorem fetchWithRetryGo_const_notOk (upstream : Nat → AttemptResult) (t m s : Nat)
    (b : Nat → Option JsonBody)
    (hup : ∀ n, upstream n = .response { status := s, body := b n })
    (hok : responseOk s = false) :
    ∀ fuel attempt0, attempt0 ≤ m → m + 1 - attempt0 ≤ fuel →
      fetchWithRetryGo upstream t m attempt0 fuel = (m + 1, .error (httpStatusError s)) := by
  intro fuel
  induction fuel with
  | zero => intro a h1 h2; omega
  | succ f ih =>
    intro a h1 h2
    rw [fetchWithRetryGo_response upstream t m a (f + 1) _ (hup (a + 1))]
    by_cases hle : a + 1 ≤ m
    · by_cases h5 : 500 ≤ s
      · rw [if_neg (by simp [hok]), if_pos (by simp [hle, h5])]
        exact ih (a + 1) hle (by omega)
      · rw [if_neg (by simp [hok]), if_neg (by simp [h5]), if_pos hle]
        exact ih (a + 1) hle (by omega)
    · have ha : a = m := by omega
      subst ha
      rw [if_neg (by simp [hok]), if_neg (by simp [hle]), if_neg hle]

theorem fetchWithRetry_first_ok (upstream : Nat → AttemptResult) (t m : Nat)
    (r : UpstreamResponse) (hup : upstream 1 = .response r)
    (hok : responseOk r.status = true) :
    fetchWithRetry upstream t m = (1, .ok r) := by
  rw [fetchWithRetry, fetchWithRetryGo]
  simp only [Nat.zero_add, hup, hok, if_true]

/-- Upstream oracle that answers HTTP 400 on every attempt. -/
def const400Upstream : Nat → AttemptResult := fun _ => .response { status := 400 }

/-- Upstream oracle that answers HTTP 503 on every attempt. -/
def const503Upstream : Nat → AttemptResult := fun _ => .response { status := 503 }

/-- C2: the claim states that for an upstream 400 response `fetchWithRetry`
performs exactly 1 attempt and raises a fatal error immediately, with no
retry. The code does not: the `throw` for a non-ok response sits inside the
`try` block and is caught by the function's own `catch`, where
`error instanceof BusClientError` satisfies the retry condition, so a 4xx is
retried exactly like a 5xx. With the default `maxRetries = 2` and an upstream
that answers 400 on every attempt, exactly 3 attempts occur before
`CTA_BUS_HTTP_ERROR` (status 400) is raised — not 1. -/
theorem fetchWithRetry_400_is_retried :
    fetchWithRetry const400Upstream DEFAULT_TIMEOUT_MS DEFAULT_MAX_RETRIES
        = (3, .error (httpStatusError 400))
    ∧ (3 : Nat) ≠ 1 := by
  constructor
  · exact fetchWithRetryGo_const_notOk const400Upstream DEFAULT_TIMEOUT_MS
      DEFAULT_MAX_RETRIES 400 (fun _ => none) (fun _ => rfl) rfl
      (DEFAULT_MAX_RETRIES + 1) 0 (by decide) (by decide)
  · decide

/-- C3 counterexample: with an upstream answering 503 on every attempt and the
default `maxRetries = 2`, the raised error has code `CTA_BUS_HTTP_ERROR` and
status 503 — not code `UPSTREAM_REQUEST_FAILED` (nor the source's
`CTA_BUS_REQUEST_FAILED` spelling) and not status 502 as the claim states. -/
theorem fetchWithRetry_503_error_shape :
    fetchWithRetry const503Upstream DEFAULT_TIMEOUT_MS DEFAULT_MAX_RETRIES
        = (3, .error (httpStatusError 503))
    ∧ (httpStatusError 503).code ≠ "UPSTREAM_REQUEST_FAILED"
    ∧ (httpStatusError 503).code ≠ "CTA_BUS_REQUEST_FAILED"
    ∧ (httpStatusError 503).status = 503
    ∧ (503 : Nat) ≠ 502 := by
  refine ⟨?_, by decide, by decide, rfl, by decide⟩
  exact fetchWithRetryGo_const_notOk const503Upstream DEFAULT_TIMEOUT_MS
    DEFAULT_MAX_RETRIES 503 (fun _ => none) (fun _ => rfl) rfl
    (DEFAULT_MAX_RETRIES + 1) 0 (by decide) (by decide)

/-- C3 (amended): if the upstream responds 503 on every attempt,
`fetchWithRetry` performs exactly `maxRetries + 1` attempts and then raises a
`BusClientError` with code `CTA_BUS_HTTP_ERROR` and status 503 (the upstream
status) — the retry bound of the claim holds, the error code and status do
not. -/
theorem fetchWithRetry_retry_bound_503 (upstream : Nat → AttemptResult) (t m : Nat)
    (b : Nat → Option JsonBody)
    (hup : ∀ n, upstream n = .response { status := 503, body := b n }) :
    fetchWithRetry upstream t m = (m + 1, .error (httpStatusError 503))
    ∧ (httpStatusError 503).code = "CTA_BUS_HTTP_ERROR"
    ∧ (httpStatusError 503).status = 503 := by
  refine ⟨?_, rfl, rfl⟩
  exact fetchWithRetryGo_const_notOk upstream t m 503 b hup rfl (m + 1) 0
    (Nat.zero_le m) (by omega)

/-- Witness for the amended C3 at a concrete 503 oracle and `maxRetries = 2`. -/
theorem fetchWithRetry_retry_bound_503_witness :
    fetchWithRetry const503Upstream DEFAULT_TIMEOUT_MS 2 = (3, .error (httpStatusError 503))
    ∧ (httpStatusError 503).code = "CTA_BUS_HTTP_ERROR"
    ∧ (httpStatusError 503).status = 503 :=
  fetchWithRetry_retry_bound_503 const503Upstream DEFAULT_TIMEOUT_MS 2
    (fun _ => none) (fun _ => rfl)

/-- C10: a cache-hit result is the cached result with only `servedFromCache`
flipped on — the payload is the same value and every other meta field is
unchanged. -/
theorem toCachedResult_frame (entry : CacheEntry) :
    (toCachedResult entry).payload = entry.value.payload
    ∧ (toCachedResult entry).meta.servedFromCache = true
    ∧ (toCachedResult entry).meta.endpoint = entry.value.meta.endpoint
    ∧ (toCachedResult entry).meta.params = entry.value.meta.params
    ∧ (toCachedResult entry).meta.cacheKey = entry.value.meta.cacheKey
    ∧ (toCachedResult entry).meta.cacheTtlMs = entry.value.meta.cacheTtlMs
    ∧ (toCachedResult entry).meta.cacheExpiresAt = entry.value.meta.cacheExpiresAt
    ∧ (toCachedResult entry).meta.sourceTimestamp = entry.value.meta.sourceTimestamp
    ∧ (toCachedResult entry).meta.reason = entry.value.meta.reason :=
  ⟨rfl, rfl, rfl, rfl, rfl, rfl, rfl, rfl, rfl⟩

/-! Lemmas for parameter canonicalization (claim C8). -/

theorem alist_key_unique {κ α : Type} {l : List (κ × α)} {k : κ} {a b : α}
    (ha : (k, a) ∈ l) (hb : (k, b) ∈ l) (hnd : (l.map Prod.fst).Nodup) : a = b := by
  induction l with
  | nil => simp at ha
  | cons p t ih =>
    simp only [List.map_cons, List.nodup_cons] at hnd
    rcases List.mem_cons.mp ha with ha' | ha' <;> rcases List.mem_cons.mp hb with hb' | hb'
    · exact (Prod.ext_iff.mp (ha'.trans hb'.symm)).2
    · exfalso
      apply hnd.1
      have hk : p.1 = k := by rw [← ha']
      rw [hk]
      exact List.mem_map_of_mem Prod.fst hb'
    · exfalso
      apply hnd.1
      have hk : p.1 = k := by rw [← hb']
      rw [hk]
      exact List.mem_map_of_mem Prod.fst ha'
    · exact ih ha' hb' hnd.2

theorem normalizeParams_keys_sublist (ps : List (String × JsValue)) :
    ((normalizeParams ps).map Prod.fst).Sublist (ps.map Prod.fst) := by
  induction ps with
  | nil => simp [normalizeParams]
  | cons p t ih =>
    rw [normalizeParams, List.filterMap_cons]
    cases hs : stringifyParam p.2 with
    | none => exact List.Sublist.cons p.1 ih
    | some v => simpa using List.Sublist.cons₂ p.1 ih

theorem mem_normalizeParams {ps : List (String × JsValue)} {k : String} {w : String} :
    (k, w) ∈ normalizeParams ps ↔ ∃ jv, (k, jv) ∈ ps ∧ stringifyParam jv = some w := by
  rw [normalizeParams]
  constructor
  · intro hmem
    obtain ⟨⟨k', jv⟩, hp, he⟩ := List.mem_filterMap.mp hmem
    cases hs : stringifyParam jv with
    | none => rw [hs] at he; simp at he
    | some w' =>
      rw [hs] at he
      simp at he
      exact ⟨jv, by rw [← he.1]; exact hp, by rw [hs, he.2]⟩
  · rintro ⟨jv, hp, hs⟩
    exact List.mem_filterMap.mpr ⟨(k, jv), hp, by rw [hs]; rfl⟩

theorem serializeParams_of_perm {l₁ l₂ : List (String × String)} (h : l₁.Perm l₂)
    (hnd : (l₁.map Prod.fst).Nodup) : serializeParams l₁ = serializeParams l₂ := by
  haveI hA : IsAntisymm String (fun a b : String => a ≤ b) := ⟨fun _ _ h1 h2 => le_antisymm h1 h2⟩
  haveI hT : IsTotal String (fun a b : String => a ≤ b) := ⟨fun a b => le_total a b⟩
  haveI hR : IsTrans String (fun a b : String => a ≤ b) := ⟨fun _ _ _ h1 h2 => le_trans h1 h2⟩
  have hkeys : sortedKeys l₁ = sortedKeys l₂ := by
    have hp : (sortedKeys l₁).Perm (sortedKeys l₂) :=
      (List.perm_insertionSort _ _).trans
        ((h.map Prod.fst).trans (List.perm_insertionSort _ _).symm)
    exact List.eq_of_perm_of_sorted hp
      (List.sorted_insertionSort _ _) (List.sorted_insertionSort _ _)
  rw [serializeParams, serializeParams, hkeys]
  congr 1
  refine List.map_congr_left (fun k _ => ?_)
  rw [alistLookup_of_perm h hnd k]

theorem resolvedParams_of_perm (env : BusClientEnv) (o : BusRequestOptions)
    {ps₁ ps₂ : List (String × JsValue)} (h : ps₁.Perm ps₂)
    (hnd : (ps₁.map Prod.fst).Nodup) :
    (resolvedParams env { o with params := ps₁ }).Perm (resolvedParams env { o with params := ps₂ })
    ∧ ((resolvedParams env { o with params := ps₁ }).map Prod.fst).Nodup := by
  have hn : (normalizeParams ps₁).Perm (normalizeParams ps₂) := h.filterMap _
  have hnd₁ : ((normalizeParams ps₁).map Prod.fst).Nodup :=
    hnd.sublist (normalizeParams_keys_sublist ps₁)
  rw [resolvedParams, resolvedParams]
  simp only
  rw [← alistLookup_of_perm hn hnd₁ "rtpidatafeed"]
  by_cases hfeed : (!jsStrTruthy (alistLookup (normalizeParams ps₁) "rtpidatafeed")
      && env.rtpidatafeed != "") = true
  · rw [hfeed]
    simp only [if_true]
    have hn' := alistSet_perm hn "rtpidatafeed" env.rtpidatafeed
    have hnd' := alistSet_keys_nodup hnd₁ "rtpidatafeed" env.rtpidatafeed
    rw [← alistLookup_of_perm hn' hnd' "format"]
    by_cases hfmt : (!jsStrTruthy (alistLookup
        (alistSet (normalizeParams ps₁) "rtpidatafeed" env.rtpidatafeed) "format")) = true
    · rw [hfmt]
      simp only [if_true]
      exact ⟨alistSet_perm hn' "format" "json", alistSet_keys_nodup hnd' "format" "json"⟩
    · rw [Bool.not_eq_true] at hfmt
      rw [hfmt]
      simp only [Bool.false_eq_true, if_false]
      exact ⟨hn', hnd'⟩
  · rw [Bool.not_eq_true] at hfeed
    rw [hfeed]
    simp only [Bool.false_eq_true, if_false]
    rw [← alistLookup_of_perm hn hnd₁ "format"]
    by_cases hfmt : (!jsStrTruthy (alistLookup (normalizeParams ps₁) "format")) = true
    · rw [hfmt]
      simp only [if_true]
      exact ⟨alistSet_perm hn "format" "json", alistSet_keys_nodup hnd₁ "format" "json"⟩
    · rw [Bool.not_eq_true] at hfmt
      rw [hfmt]
      simp only [Bool.false_eq_true, if_false]
      exact ⟨hn, hnd₁⟩

/-- C8: two parameter records for the same endpoint holding the same key-value
pairs in different insertion orders derive the same cache key; the
canonicalization drops entries whose value is empty, undefined or null, and
the serialization orders the remaining keys ascending. -/
theorem cacheKey_canonicalization (env : BusClientEnv) (o : BusRequestOptions)
    (ps₁ ps₂ : List (String × JsValue)) (hperm : ps₁.Perm ps₂)
    (hnd : (ps₁.map Prod.fst).Nodup) :
    requestKey env { o with params := ps₁ } = requestKey env { o with params := ps₂ }
    ∧ (∀ k v, (k, v) ∈ ps₁ → (v = .undef ∨ v = .nullv ∨ v = .str "") →
        ∀ w, (k, w) ∉ normalizeParams ps₁)
    ∧ (∀ ps : List (String × String), (sortedKeys ps).Sorted (fun a b => a ≤ b)
        ∧ (sortedKeys ps).Perm (ps.map Prod.fst)) := by
  refine ⟨?_, ?_, ?_⟩
  · have hres := resolvedParams_of_perm env o hperm hnd
    have hser := serializeParams_of_perm hres.1 hres.2
    rw [requestKey, requestKey, computeCacheKey, computeCacheKey]
    by_cases hT : jsStrTruthy o.cacheKey = true
    · simp [hT]
    · simp [hT, derivedCacheKey, hser]
  · intro k v hmem hdrop w hw
    obtain ⟨jv, hjv, hs⟩ := mem_normalizeParams.mp hw
    have : jv = v := alist_key_unique hjv hmem hnd
    rw [this] at hs
    rcases hdrop with h | h | h <;> rw [h] at hs <;> simp [stringifyParam] at hs
  · intro ps
    exact ⟨List.sorted_insertionSort _ _, (List.perm_insertionSort _ _)⟩

/-- Witness for C8 at two concrete orderings of the same parameters. -/
theorem cacheKey_canonicalization_witness :
    requestKey { apiKey := some "K" }
        { endpoint := "getpredictions", params := [("stpid", .str "456"), ("rt", .str "20")] }
      = requestKey { apiKey := some "K" }
        { endpoint := "getpredictions", params := [("rt", .str "20"), ("stpid", .str "456")] } :=
  (cacheKey_canonicalization { apiKey := some "K" } { endpoint := "getpredictions" }
    [("stpid", .str "456"), ("rt", .str "20")] [("rt", .str "20"), ("stpid", .str "456")]
    (by decide) (by decide)).1

/-! Claim C9: the credential influences only the outgoing URL. -/

/-- Successful own result of a call, when there is one. -/
def resultOk? : CallResult → Option BusApiClientResult
  | .completed (.ok r) => some r
  | .completed (.error _) => none
  | .joinedInFlight _ => none

/-- Cache key visible in a call result: the success meta's key, the thrown
error's key field, or the key joined on. -/
def resultCacheKey : CallResult → Option String
  | .completed (.ok r) => some r.meta.cacheKey
  | .completed (.error e) => e.cacheKey
  | .joinedInFlight key => some key

/-- Normalized parameter record visible in a call result. -/
def resultParams : CallResult → Option (List (String × String))
  | .completed (.ok r) => some r.meta.params
  | .completed (.error e) => e.params
  | .joinedInFlight _ => none

/-- C9: for any two non-empty credentials, `callBusApi` computes the same
result, cache state, launch count, cache key and meta params — the credential
is injected only into the outgoing request URL (`urlParams`). -/
theorem credential_noninterference (k₁ k₂ feed : String) (h₁ : k₁ ≠ "") (h₂ : k₂ ≠ "")
    (cdti : String → Option String) (options : BusRequestOptions)
    (cache : List (String × CacheEntry)) (inFlightKeys : List String)
    (n₀ n₁ : Int) (upstream : Nat → AttemptResult) :
    (callBusApi { apiKey := some k₁, rtpidatafeed := feed } cdti options cache inFlightKeys n₀ n₁ upstream).result
      = (callBusApi { apiKey := some k₂, rtpidatafeed := feed } cdti options cache inFlightKeys n₀ n₁ upstream).result
    ∧ (callBusApi { apiKey := some k₁, rtpidatafeed := feed } cdti options cache inFlightKeys n₀ n₁ upstream).cacheAfter
      = (callBusApi { apiKey := some k₂, rtpidatafeed := feed } cdti options cache inFlightKeys n₀ n₁ upstream).cacheAfter
    ∧ (callBusApi { apiKey := some k₁, rtpidatafeed := feed } cdti options cache inFlightKeys n₀ n₁ upstream).fetchLaunches
      = (callBusApi { apiKey := some k₂, rtpidatafeed := feed } cdti options cache inFlightKeys n₀ n₁ upstream).fetchLaunches
    ∧ resultCacheKey (callBusApi { apiKey := some k₁, rtpidatafeed := feed } cdti options cache inFlightKeys n₀ n₁ upstream).result
      = resultCacheKey (callBusApi { apiKey := some k₂, rtpidatafeed := feed } cdti options cache inFlightKeys n₀ n₁ upstream).result
    ∧ resultParams (callBusApi { apiKey := some k₁, rtpidatafeed := feed } cdti options cache inFlightKeys n₀ n₁ upstream).result
      = resultParams (callBusApi { apiKey := some k₂, rtpidatafeed := feed } cdti options cache inFlightKeys n₀ n₁ upstream).result := by
  have hgo : callBusApiGo { apiKey := some k₁, rtpidatafeed := feed } cdti options cache
        inFlightKeys n₀ n₁ upstream
      = callBusApiGo { apiKey := some k₂, rtpidatafeed := feed } cdti options cache
        inFlightKeys n₀ n₁ upstream := rfl
  simp [callBusApi, jsStrTruthy, h₁, h₂, hgo]

/-- Witness for C9 at two concrete credentials. -/
theorem credential_noninterference_witness :
    (callBusApi { apiKey := some "KEYA", rtpidatafeed := "ctabus" } (fun _ => none)
        { endpoint := "gettime" } [] [] 0 0
        (fun _ => .response { status := 200, body := some { bustimeResponse := some {} } })).result
      = (callBusApi { apiKey := some "KEYB", rtpidatafeed := "ctabus" } (fun _ => none)
        { endpoint := "gettime" } [] [] 0 0
        (fun _ => .response { status := 200, body := some { bustimeResponse := some {} } })).result :=
  (credential_noninterference "KEYA" "KEYB" "ctabus" (by decide) (by decide)
    (fun _ => none) { endpoint := "gettime" } [] [] 0 0
    (fun _ => .response { status := 200, body := some { bustimeResponse := some {} } })).1

/-! Claim C5: cache honoring. -/

/-- C5: with caching enabled and a stored entry for the derived key, a request
before the entry's expiry returns the cached payload marked
`servedFromCache = true` with zero upstream launches and no cache change; a
request at or after expiry ignores the entry exactly as if it were absent
(lazy expiry) and launches exactly one upstream fetch. -/
theorem cache_honoring (env : BusClientEnv) (cdti : String → Option String)
    (options : BusRequestOptions) (cache : List (String × CacheEntry))
    (inFlightKeys : List String) (n₀ n₁ : Int) (upstream : Nat → AttemptResult)
    (entry : CacheEntry)
    (hkey : jsStrTruthy env.apiKey = true)
    (hreq : options.requiredParams.find? (fun key => requiredParamMissing options.params key) = none)
    (httl : options.cacheTtlMs.getD 0 > 0)
    (hlook : alistLookup cache (requestKey env options) = some entry) :
    (entry.expiresAt > n₀ →
      (callBusApi env cdti options cache inFlightKeys n₀ n₁ upstream).result
          = .completed (.ok (toCachedResult entry))
      ∧ (toCachedResult entry).meta.servedFromCache = true
      ∧ (callBusApi env cdti options cache inFlightKeys n₀ n₁ upstream).fetchLaunches = 0
      ∧ (callBusApi env cdti options cache inFlightKeys n₀ n₁ upstream).cacheAfter = cache)
    ∧ (entry.expiresAt ≤ n₀ → inFlightKeys.contains (requestKey env options) = false →
      (callBusApi env cdti options cache inFlightKeys n₀ n₁ upstream).fetchLaunches = 1
      ∧ (callBusApi env cdti options cache inFlightKeys n₀ n₁ upstream).result
          = (callBusApi env cdti options (alistErase cache (requestKey env options))
              inFlightKeys n₀ n₁ upstream).result) := by
  constructor
  · intro hfresh
    simp [callBusApi, callBusApiGo, cachedFreshHit, toCachedResult, hkey, hreq, hlook, httl,
      hfresh]
  · intro hstale hnif
    have hnot : ¬(entry.expiresAt > n₀) := by omega
    have hni : requestKey env options ∉ inFlightKeys := by simpa using hnif
    have herased : alistLookup (alistErase cache (requestKey env options))
        (requestKey env options) = none := alistLookup_alistErase cache _
    simp [callBusApi, callBusApiGo, cachedFreshHit, hkey, hreq, hlook, httl, hnot, hni, herased]

/-- Concrete cached metadata used by the C5 witness. -/
def gettimeMeta : BusClientMeta :=
  { endpoint := "gettime", params := [], cacheKey := "ck", cacheTtlMs := 30000,
    servedFromCache := false }

/-- Concrete cache entry used by the C5 witness (expires at instant 50). -/
def gettimeEntry : CacheEntry :=
  { value := { payload := {}, meta := gettimeMeta }, expiresAt := 50 }

/-- Concrete request options used by the C5 witness. -/
def gettimeOptions : BusRequestOptions :=
  { endpoint := "gettime", cacheKey := some "ck", cacheTtlMs := some 30000 }

/-- Upstream oracle answering 200 with an empty `bustime-response` object. -/
def okEmptyUpstream : Nat → AttemptResult :=
  fun _ => .response { status := 200, body := some { bustimeResponse := some {} } }

/-- Witness for C5 at a concrete fresh cache entry (checked at instant 40,
before the expiry instant 50). -/
theorem cache_honoring_witness :
    (callBusApi { apiKey := some "K" } (fun _ => none) gettimeOptions [("ck", gettimeEntry)]
        [] 40 41 okEmptyUpstream).result = .completed (.ok (toCachedResult gettimeEntry))
    ∧ (toCachedResult gettimeEntry).meta.servedFromCache = true
    ∧ (callBusApi { apiKey := some "K" } (fun _ => none) gettimeOptions [("ck", gettimeEntry)]
        [] 40 41 okEmptyUpstream).fetchLaunches = 0
    ∧ (callBusApi { apiKey := some "K" } (fun _ => none) gettimeOptions [("ck", gettimeEntry)]
        [] 40 41 okEmptyUpstream).cacheAfter = [("ck", gettimeEntry)] :=
  (cache_honoring { apiKey := some "K" } (fun _ => none) gettimeOptions [("ck", gettimeEntry)]
    [] 40 41 okEmptyUpstream gettimeEntry
    (by decide) (by decide) (by decide) (by decide)).1 (by decide)

/-! Claim C6: soft-error transparency. -/

/-- C6: an upstream body whose error array matches a soft-empty pattern makes
the call succeed rather than throw: the error list is stripped from the
payload and `meta.reason` carries the mapped explanation for that pattern. -/
theorem soft_error_transparency (env : BusClientEnv) (cdti : String → Option String)
    (options : BusRequestOptions) (cache : List (String × CacheEntry))
    (inFlightKeys : List String) (n₀ n₁ : Int) (upstream : Nat → AttemptResult)
    (payload : BustimePayload) (errorList : List BusRawError) (reason : String)
    (hkey : jsStrTruthy env.apiKey = true)
    (hreq : options.requiredParams.find? (fun key => requiredParamMissing options.params key) = none)
    (hmiss : cachedFreshHit (options.cacheTtlMs.getD 0) cache (requestKey env options) n₀ = none)
    (hnif : inFlightKeys.contains (requestKey env options) = false)
    (hup : upstream 1 = .response { status := 200, body := some { bustimeResponse := some payload } })
    (herr : payload.error = some errorList)
    (hlen : errorList.length > 0)
    (hsoft : classifySoftError errorList = some reason) :
    ((resultOk? (callBusApi env cdti options cache inFlightKeys n₀ n₁ upstream).result).map
        (fun r => r.payload)) = some { payload with error := none }
    ∧ ((resultOk? (callBusApi env cdti options cache inFlightKeys n₀ n₁ upstream).result).map
        (fun r => r.payload.error)) = some none
    ∧ ((resultOk? (callBusApi env cdti options cache inFlightKeys n₀ n₁ upstream).result).map
        (fun r => r.meta.reason)) = some (some reason) := by
  have hfetch : fetchWithRetry upstream (options.timeoutMs.getD DEFAULT_TIMEOUT_MS)
      (options.maxRetries.getD DEFAULT_MAX_RETRIES)
      = (1, .ok { status := 200, body := some { bustimeResponse := some payload } }) :=
    fetchWithRetry_first_ok upstream _ _ _ hup rfl
  have hni : requestKey env options ∉ inFlightKeys := by simpa using hnif
  refine ⟨?_, ?_, ?_⟩ <;>
    simp [callBusApi, callBusApiGo, leaderFetch, resultOk?, hkey, hreq, hmiss, hni, hfetch,
      herr, hlen, hsoft]

/-- Concrete soft-error upstream body for the C6 witness and C4 counterexample. -/
def noArrivalsBody : BustimePayload :=
  { error := some [{ msg := some "No arrival times" }] }

/-- Upstream oracle answering 200 with the soft-error body. -/
def softUpstream : Nat → AttemptResult :=
  fun _ => .response { status := 200, body := some { bustimeResponse := some noArrivalsBody } }

/-- Witness for C6 at the concrete body `{error: [{msg: "No arrival times"}]}`. -/
theorem soft_error_transparency_witness :
    ((resultOk? (callBusApi { apiKey := some "K" } (fun _ => none)
        { endpoint := "getpredictions" } [] [] 0 0 softUpstream).result).map
        (fun r => r.payload)) = some { noArrivalsBody with error := none }
    ∧ ((resultOk? (callBusApi { apiKey := some "K" } (fun _ => none)
        { endpoint := "getpredictions" } [] [] 0 0 softUpstream).result).map
        (fun r => r.payload.error)) = some none
    ∧ ((resultOk? (callBusApi { apiKey := some "K" } (fun _ => none)
        { endpoint := "getpredictions" } [] [] 0 0 softUpstream).result).map
        (fun r => r.meta.reason)) = some (some "No arrival times available.") :=
  soft_error_transparency { apiKey := some "K" } (fun _ => none)
    { endpoint := "getpredictions" } [] [] 0 0 softUpstream noArrivalsBody
    [{ msg := some "No arrival times" }] "No arrival times available."
    (by decide) rfl rfl rfl rfl rfl (by decide) (by decide)

/-! Claim C4: when the cache is written. -/

theorem leaderFetch_ok_shape (cdti : String → Option String) (options : BusRequestOptions)
    (normalizedParams : List (String × String)) (cacheKey : String) (cacheTtlMs : Int)
    (timeoutMs maxRetries : Nat) (nowSettle : Int) (upstream : Nat → AttemptResult)
    (r : BusApiClientResult) (n : Nat)
    (h : leaderFetch cdti options normalizedParams cacheKey cacheTtlMs timeoutMs maxRetries
      nowSettle upstream = (.ok r, n)) :
    r.meta.servedFromCache = false := by
  simp only [leaderFetch] at h
  split at h
  · simp at h
  · split at h
    · simp at h
    · split at h
      · simp at h
      · split at h
        · simp at h
        · simp only [Prod.mk.injEq, Except.ok.injEq] at h
          rw [← h.1]

theorem callBusApiGo_cache_write (env : BusClientEnv) (cdti : String → Option String)
    (options : BusRequestOptions) (cache : List (String × CacheEntry))
    (inFlightKeys : List String) (n₀ n₁ : Int) (upstream : Nat → AttemptResult) :
    (options.cacheTtlMs.getD 0 ≤ 0 →
      (callBusApiGo env cdti options cache inFlightKeys n₀ n₁ upstream).cacheAfter = cache)
    ∧ (∀ e, (callBusApiGo env cdti options cache inFlightKeys n₀ n₁ upstream).result
          = .completed (.error e) →
        (callBusApiGo env cdti options cache inFlightKeys n₀ n₁ upstream).cacheAfter = cache)
    ∧ (∀ k, (callBusApiGo env cdti options cache inFlightKeys n₀ n₁ upstream).result
          = .joinedInFlight k →
        (callBusApiGo env cdti options cache inFlightKeys n₀ n₁ upstream).cacheAfter = cache)
    ∧ (∀ r, (callBusApiGo env cdti options cache inFlightKeys n₀ n₁ upstream).result
          = .completed (.ok r) → r.meta.servedFromCache = true →
        (callBusApiGo env cdti options cache inFlightKeys n₀ n₁ upstream).cacheAfter = cache)
    ∧ (∀ r, (callBusApiGo env cdti options cache inFlightKeys n₀ n₁ upstream).result
          = .completed (.ok r) → r.meta.servedFromCache = false →
        (callBusApiGo env cdti options cache inFlightKeys n₀ n₁ upstream).cacheAfter
          = (if 0 < options.cacheTtlMs.getD 0 then
              alistSet cache (requestKey env options)
                { value := r, expiresAt := n₁ + options.cacheTtlMs.getD 0 }
            else cache)) := by
  simp only [callBusApiGo]
  split
  · refine ⟨fun _ => rfl, fun _ _ => rfl, fun k hk => ?_, fun r hr _ => rfl, fun r hr _ => ?_⟩
    · simp at hk
    · simp at hr
  · split
    · rename_i cached hhit
      refine ⟨fun _ => rfl, fun e he => ?_, fun k hk => ?_, fun r hr _ => rfl, fun r hr hs => ?_⟩
      · simp at he
      · simp at hk
      · exfalso
        simp only [CallResult.completed.injEq, Except.ok.injEq] at hr
        rw [← hr] at hs
        simp [toCachedResult] at hs
    · split
      · refine ⟨fun _ => rfl, fun e he => ?_, fun _ _ => rfl, fun r hr _ => ?_, fun r hr _ => ?_⟩
        · simp at he
        · simp at hr
        · simp at hr
      · refine ⟨?_, ?_, ?_, ?_, ?_⟩
        · intro httl
          cases hl : (leaderFetch cdti options (resolvedParams env options)
              (requestKey env options) (options.cacheTtlMs.getD 0)
              (options.timeoutMs.getD DEFAULT_TIMEOUT_MS)
              (options.maxRetries.getD DEFAULT_MAX_RETRIES) n₁ upstream).1 with
          | ok c => simp [hl, show ¬(options.cacheTtlMs.getD 0 > 0) by omega]
          | error e => simp [hl]
        · intro e he
          simp only [CallResult.completed.injEq] at he
          simp [he]
        · intro k hk
          simp at hk
        · intro r hr hs
          simp only [CallResult.completed.injEq] at hr
          exfalso
          have hfalse := leaderFetch_ok_shape cdti options (resolvedParams env options)
            (requestKey env options) (options.cacheTtlMs.getD 0)
            (options.timeoutMs.getD DEFAULT_TIMEOUT_MS)
            (options.maxRetries.getD DEFAULT_MAX_RETRIES) n₁ upstream r
            (leaderFetch cdti options (resolvedParams env options)
              (requestKey env options) (options.cacheTtlMs.getD 0)
              (options.timeoutMs.getD DEFAULT_TIMEOUT_MS)
              (options.maxRetries.getD DEFAULT_MAX_RETRIES) n₁ upstream).2
            (by rw [← hr])
          rw [hfalse] at hs
          cases hs
        · intro r hr hs
          simp only [CallResult.completed.injEq] at hr
          simp [hr]

/-- C4 (amended): a cache write occurs exactly for calls with `cacheTtl > 0`
that settled with a successful fresh fetch — including soft-empty ("no data")
successes, which the source does cache. `ClientError` outcomes, joined calls,
cache hits and calls with `cacheTtl <= 0` leave the cache unchanged. -/
theorem cache_write_characterization (env : BusClientEnv) (cdti : String → Option String)
    (options : BusRequestOptions) (cache : List (String × CacheEntry))
    (inFlightKeys : List String) (n₀ n₁ : Int) (upstream : Nat → AttemptResult) :
    (options.cacheTtlMs.getD 0 ≤ 0 →
      (callBusApi env cdti options cache inFlightKeys n₀ n₁ upstream).cacheAfter = cache)
    ∧ (∀ e, (callBusApi env cdti options cache inFlightKeys n₀ n₁ upstream).result
          = .completed (.error e) →
        (callBusApi env cdti options cache inFlightKeys n₀ n₁ upstream).cacheAfter = cache)
    ∧ (∀ k, (callBusApi env cdti options cache inFlightKeys n₀ n₁ upstream).result
          = .joinedInFlight k →
        (callBusApi env cdti options cache inFlightKeys n₀ n₁ upstream).cacheAfter = cache)
    ∧ (∀ r, (callBusApi env cdti options cache inFlightKeys n₀ n₁ upstream).result
          = .completed (.ok r) → r.meta.servedFromCache = true →
        (callBusApi env cdti options cache inFlightKeys n₀ n₁ upstream).cacheAfter = cache)
    ∧ (∀ r, (callBusApi env cdti options cache inFlightKeys n₀ n₁ upstream).result
          = .completed (.ok r) → r.meta.servedFromCache = false →
        (callBusApi env cdti options cache inFlightKeys n₀ n₁ upstream).cacheAfter
          = (if 0 < options.cacheTtlMs.getD 0 then
              alistSet cache (requestKey env options)
                { value := r, expiresAt := n₁ + options.cacheTtlMs.getD 0 }
            else cache)) := by
  have hgo := callBusApiGo_cache_write env cdti options cache inFlightKeys n₀ n₁ upstream
  by_cases hkey : jsStrTruthy env.apiKey = true
  · have hcall : callBusApi env cdti options cache inFlightKeys n₀ n₁ upstream
        = { callBusApiGo env cdti options cache inFlightKeys n₀ n₁ upstream with
            urlParams := if (callBusApiGo env cdti options cache inFlightKeys n₀ n₁
                upstream).fetchLaunches > 0
              then some (requestUrlParams env options) else none } := by
      rw [callBusApi]
      simp [hkey]
    rw [hcall]
    exact hgo
  · rw [Bool.not_eq_true] at hkey
    have hcall : callBusApi env cdti options cache inFlightKeys n₀ n₁ upstream
        = { result := .completed (.error configMissingError), cacheAfter := cache,
            fetchLaunches := 0, attempts := 0, urlParams := none } := by
      rw [callBusApi]
      simp [hkey]
    rw [hcall]
    refine ⟨fun _ => rfl, fun _ _ => rfl, fun k hk => ?_, fun r hr _ => rfl, fun r hr _ => ?_⟩
    · simp at hk
    · simp at hr

/-- C4 counterexample: a call whose upstream body is classified as a soft
"no data" condition does write the cache when `cacheTtl > 0` — the soft path
falls through to the cache write — contradicting the claim that soft-error
results are never stored. -/
theorem soft_error_is_cached :
    ((resultOk? (callBusApi { apiKey := some "K" } (fun _ => none)
        { endpoint := "getpredictions", cacheKey := some "ck", cacheTtlMs := some 30000 }
        [] [] 0 0 softUpstream).result).map (fun r => r.meta.reason))
      = some (some "No arrival times available.")
    ∧ (callBusApi { apiKey := some "K" } (fun _ => none)
        { endpoint := "getpredictions", cacheKey := some "ck", cacheTtlMs := some 30000 }
        [] [] 0 0 softUpstream).cacheAfter ≠ [] := by
  constructor
  · decide
  · decide

/-- Request options of the soft-error caching scenario. -/
def softOptions : BusRequestOptions :=
  { endpoint := "getpredictions", cacheKey := some "ck", cacheTtlMs := some 30000 }

/-- The client result the soft-error scenario settles with. -/
def softSuccessValue : BusApiClientResult :=
  { payload := { noArrivalsBody with error := none },
    meta := { endpoint := "getpredictions",
              params := resolvedParams { apiKey := some "K" } softOptions,
              cacheKey := "ck", cacheTtlMs := 30000, cacheExpiresAt := some 30000,
              servedFromCache := false, reason := some "No arrival times available." } }

/-- Witness for the amended C4 at the soft-error instance: the fresh (soft)
success is written to the cache under the request key with the settled
expiry. -/
theorem cache_write_characterization_witness :
    (callBusApi { apiKey := some "K" } (fun _ => none) softOptions [] [] 0 0
        softUpstream).cacheAfter
      = (if 0 < softOptions.cacheTtlMs.getD 0 then
          alistSet [] (requestKey { apiKey := some "K" } softOptions)
            { value := softSuccessValue, expiresAt := 0 + softOptions.cacheTtlMs.getD 0 }
        else []) :=
  (cache_write_characterization { apiKey := some "K" } (fun _ => none) softOptions
    [] [] 0 0 softUpstream).2.2.2.2 softSuccessValue (by decide) (by decide)

/-! Claim C7: code and status of a mapped genuine failure. -/

theorem deriveCodeFromMessage_ne_empty (message : String) :
    deriveCodeFromMessage message ≠ "" := by
  simp only [deriveCodeFromMessage]
  split
  · decide
  · rename_i hc
    exact hc

theorem findMappedError_mem {errors : List BusRawError} {raw : BusRawError}
    {mapping : ErrorMapping} (h : findMappedError errors = some (raw, mapping)) :
    mapping ∈ CTA_ERROR_MAPPINGS := by
  rw [findMappedError] at h
  obtain ⟨e, _, hf⟩ := List.exists_of_findSome?_eq_some h
  split at hf
  · simp at hf
  · split at hf
    · simp at hf
    · obtain ⟨m', hm', hf2⟩ := List.exists_of_findSome?_eq_some hf
      split at hf2
      · simp only [Option.some_inj, Prod.mk.injEq] at hf2
        rw [← hf2.2]
        exact hm'
      · simp at hf2

theorem mappings_wf : ∀ m ∈ CTA_ERROR_MAPPINGS, m.code ≠ "" ∧ jsNumTruthy m.status = true := by
  decide

/-- C7 (amended): when a genuine upstream error payload reaches
`mapBusApiError`, the first raw error matching a mapping determines both the
caller-facing code (the mapping's stable code, overriding the upstream code)
and the HTTP status (auth 401, rate limit 429, bad parameter 400); only when
no mapping matches is the code taken from the first upstream error's code (or
derived deterministically from its message if the code is absent) with the
status defaulting to 502. -/
theorem error_mapping_code_status (queriedAt : String) (isoOfNowPlus : Int → String)
    (e : BusClientError) (context : ErrorContext) (rawList : List BusRawError)
    (hraw : e.rawErrors = some rawList) (hlen : rawList.length > 0)
    (hctx : context.status = none) :
    (∀ raw mapping, findMappedError rawList = some (raw, mapping) →
      (mapBusApiError queriedAt isoOfNowPlus (.busClient e) context).error.code = mapping.code
      ∧ (mapBusApiError queriedAt isoOfNowPlus (.busClient e) context).meta.status
          = mapping.status)
    ∧ (findMappedError rawList = none →
      ∀ first, rawList.head? = some first → jsStrTruthy first.msg = true →
        first.code ≠ some "" →
      (mapBusApiError queriedAt isoOfNowPlus (.busClient e) context).error.code
          = first.code.getD (deriveCodeFromMessage (first.msg.getD ""))
      ∧ (mapBusApiError queriedAt isoOfNowPlus (.busClient e) context).meta.status = some 502)
    ∧ ((CTA_ERROR_MAPPINGS.find? (fun m => m.code == "CTA_BUS_AUTH_ERROR")).map
        (fun m => m.status) = some (some 401))
    ∧ ((CTA_ERROR_MAPPINGS.find? (fun m => m.code == "CTA_BUS_RATE_LIMIT")).map
        (fun m => m.status) = some (some 429))
    ∧ ((CTA_ERROR_MAPPINGS.find? (fun m => m.code == "CTA_BUS_INVALID_PARAMETER")).map
        (fun m => m.status) = some (some 400)) := by
  refine ⟨?_, ?_, by decide, by decide, by decide⟩
  · intro raw mapping hm
    have hwf := mappings_wf mapping (findMappedError_mem hm)
    obtain ⟨s, hs⟩ : ∃ s, mapping.status = some s := by
      cases hst : mapping.status with
      | none => rw [hst] at hwf; simp [jsNumTruthy] at hwf
      | some s => exact ⟨s, rfl⟩
    have hs0 : s ≠ 0 := by
      rw [hs] at hwf
      simpa [jsNumTruthy] using hwf.2
    have hderive : deriveFromRawErrors rawList
        = { code := some mapping.code, message := raw.msg,
            reason := mapping.reason, status := mapping.status } := by
      rw [deriveFromRawErrors, hm]
    constructor
    · simp [mapBusApiError, hraw, hlen, hderive, jsStrTruthy, hwf.1]
    · simp [mapBusApiError, hraw, hlen, hderive, jsNumTruthy, hs, hs0]
  · intro hm first hfirst hmsg hcode
    have hderive : deriveFromRawErrors rawList
        = { code := some (first.code.getD (deriveCodeFromMessage (first.msg.getD ""))),
            message := first.msg } := by
      rw [deriveFromRawErrors, hm, hfirst]
      simp [hmsg]
    have hcnz : first.code.getD (deriveCodeFromMessage (first.msg.getD "")) ≠ "" := by
      cases hfc : first.code with
      | none => simp [deriveCodeFromMessage_ne_empty]
      | some c =>
        simp only [Option.getD_some]
        intro hcc
        rw [hcc] at hfc
        exact hcode hfc
    constructor
    · simp [mapBusApiError, hraw, hlen, hderive, jsStrTruthy, hcnz]
    · simp [mapBusApiError, hraw, hlen, hderive, jsNumTruthy, hctx]

/-- Raw upstream error list of the C7 counterexample: a genuine auth failure
whose first error carries its own code `XYZ`. -/
def authRawList : List BusRawError :=
  [{ code := some "XYZ", msg := some "Invalid API Key provided" }]

/-- The `BusClientError` that `callBusApi` would throw for `authRawList`. -/
def authClientError : BusClientError :=
  { code := "XYZ", message := "Invalid API Key provided", rawErrors := some authRawList }

/-- The `/api key/i` entry of `CTA_ERROR_MAPPINGS`. -/
def authMapping : ErrorMapping :=
  { test := ["api key"], code := "CTA_BUS_AUTH_ERROR",
    reason := some "CTA bus tracker API key rejected.", status := some 401 }

/-- C7 counterexample: a genuine failure (not a soft error) whose first
upstream error carries code `XYZ` and an auth-failure message is surfaced with
the mapping's code `CTA_BUS_AUTH_ERROR`, not with the upstream code `XYZ` the
claim requires; the status mapping (401) does hold. -/
theorem mapped_error_code_overridden :
    classifySoftError authRawList = none
    ∧ (mapBusApiError "q" (fun _ => "x") (.busClient authClientError)
        { endpoint := "getpredictions" }).error.code = "CTA_BUS_AUTH_ERROR"
    ∧ (mapBusApiError "q" (fun _ => "x") (.busClient authClientError)
        { endpoint := "getpredictions" }).error.code ≠ "XYZ"
    ∧ (mapBusApiError "q" (fun _ => "x") (.busClient authClientError)
        { endpoint := "getpredictions" }).meta.status = some 401 :=
  ⟨by decide, by decide, by decide, by decide⟩

/-- Witness for the amended C7 at the concrete auth-failure input. -/
theorem error_mapping_code_status_witness :
    (mapBusApiError "q" (fun _ => "x") (.busClient authClientError)
        { endpoint := "getpredictions" }).error.code = authMapping.code
    ∧ (mapBusApiError "q" (fun _ => "x") (.busClient authClientError)
        { endpoint := "getpredictions" }).meta.status = authMapping.status :=
  (error_mapping_code_status "q" (fun _ => "x") authClientError
    { endpoint := "getpredictions" } authRawList rfl (by decide) rfl).1
    { code := some "XYZ", msg := some "Invalid API Key provided" } authMapping (by decide)

/-! Claim C1: single flight per cache key. -/

theorem pair_snd_unique {α β : Type} {l : List (α × β)} {p q : α × β}
    (hp : p ∈ l) (hq : q ∈ l) (hnd : (l.map Prod.snd).Nodup) (he : p.2 = q.2) : p = q := by
  induction l with
  | nil => simp at hp
  | cons x t ih =>
    simp only [List.map_cons, List.nodup_cons] at hnd
    rcases List.mem_cons.mp hp with hp' | hp' <;> rcases List.mem_cons.mp hq with hq' | hq'
    · rw [hp', hq']
    · exfalso
      apply hnd.1
      rw [← hp', he]
      exact List.mem_map_of_mem Prod.snd hq'
    · exfalso
      apply hnd.1
      rw [← hq', ← he]
      exact List.mem_map_of_mem Prod.snd hp'
    · exact ih hp' hq' hnd.2

/-- Inductive invariant of the single-flight machine. -/
structure SfInv (s : SfState) : Prop where
  ndKeys : (s.inFlightRequests.map Prod.fst).Nodup
  ndFids : (s.inFlightRequests.map Prod.snd).Nodup
  ifBound : ∀ p ∈ s.inFlightRequests, p.2 < s.nextFetchId
  joinedBound : ∀ p ∈ s.joined, p.2 < s.nextFetchId
  settledBound : ∀ p ∈ s.settled, p.1 < s.nextFetchId
  ndJoined : (s.joined.map Prod.fst).Nodup
  ndSettled : (s.settled.map Prod.fst).Nodup
  ifNotSettled : ∀ p ∈ s.inFlightRequests, ∀ o, (p.2, o) ∉ s.settled
  resultsSpec : ∀ c o, (c, o) ∈ s.results ↔
    ∃ f, (c, f) ∈ s.joined ∧ (f, o) ∈ s.settled

theorem sfInv_init : SfInv {} := by
  constructor <;> simp [SfState.inFlightRequests]

theorem sfInv_step (s : SfState) (e : SfEvent) (h : SfInv s) : SfInv (sfStep s e) := by
  cases e with
  | arrive c k =>
    rw [sfStep]
    by_cases hc : (s.joined.map (fun p => p.1)).contains c = true
    · rw [if_pos hc]
      exact h
    · rw [if_neg hc]
      have hcnot : c ∉ s.joined.map Prod.fst := by simpa using hc
      cases hlook : alistLookup s.inFlightRequests k with
      | some fid =>
        try dsimp only
        have hfmem : (k, fid) ∈ s.inFlightRequests := alistLookup_mem hlook
        refine ⟨h.ndKeys, h.ndFids, h.ifBound, ?_, h.settledBound, ?_, h.ndSettled,
          h.ifNotSettled, ?_⟩
        · intro p hp
          rcases List.mem_append.mp hp with hp' | hp'
          · exact h.joinedBound p hp'
          · have : p = (c, fid) := by simpa using hp'
            rw [this]
            exact h.ifBound (k, fid) hfmem
        · simp only [List.map_append]
          rw [List.nodup_append]
          exact ⟨h.ndJoined, by simp, by simpa using fun hx => hcnot hx⟩
        · intro c' o
          rw [h.resultsSpec c' o]
          constructor
          · rintro ⟨f, hj, hs⟩
            exact ⟨f, List.mem_append.mpr (Or.inl hj), hs⟩
          · rintro ⟨f, hj, hs⟩
            rcases List.mem_append.mp hj with hj' | hj'
            · exact ⟨f, hj', hs⟩
            · exfalso
              have : c' = c ∧ f = fid := by simpa using hj'
              rw [this.2] at hs
              exact h.ifNotSettled (k, fid) hfmem o hs
      | none =>
        try dsimp only
        have hknot : k ∉ s.inFlightRequests.map Prod.fst := alistLookup_eq_none.mp hlook
        refine ⟨?_, ?_, ?_, ?_, ?_, ?_, h.ndSettled, ?_, ?_⟩
        · simp only [List.map_append]
          rw [List.nodup_append]
          refine ⟨h.ndKeys, by simp, ?_⟩
          intro a ha hmem
          rw [List.mem_singleton.mp hmem] at ha
          exact hknot ha
        · simp only [List.map_append]
          rw [List.nodup_append]
          refine ⟨h.ndFids, by simp, ?_⟩
          intro a ha hmem
          rw [List.mem_singleton.mp hmem] at ha
          obtain ⟨p, hp, hps⟩ := List.mem_map.mp ha
          have := h.ifBound p hp
          try dsimp only
          omega
        · intro p hp
          rcases List.mem_append.mp hp with hp' | hp'
          · have := h.ifBound p hp'
            try dsimp only
            omega
          · have : p = (k, s.nextFetchId) := by simpa using hp'
            rw [this]
            try dsimp only
            omega
        · intro p hp
          rcases List.mem_append.mp hp with hp' | hp'
          · have := h.joinedBound p hp'
            try dsimp only
            omega
          · have : p = (c, s.nextFetchId) := by simpa using hp'
            rw [this]
            try dsimp only
            omega
        · intro p hp
          have := h.settledBound p hp
          try dsimp only
          omega
        · simp only [List.map_append]
          rw [List.nodup_append]
          refine ⟨h.ndJoined, by simp, ?_⟩
          intro a ha hmem
          rw [List.mem_singleton.mp hmem] at ha
          exact hcnot ha
        · intro p hp o hset
          rcases List.mem_append.mp hp with hp' | hp'
          · exact h.ifNotSettled p hp' o hset
          · have hpe : p = (k, s.nextFetchId) := by simpa using hp'
            rw [hpe] at hset
            have := h.settledBound (s.nextFetchId, o) hset
            try dsimp only
            omega
        · intro c' o
          rw [h.resultsSpec c' o]
          constructor
          · rintro ⟨f, hj, hs⟩
            exact ⟨f, List.mem_append.mpr (Or.inl hj), hs⟩
          · rintro ⟨f, hj, hs⟩
            rcases List.mem_append.mp hj with hj' | hj'
            · exact ⟨f, hj', hs⟩
            · exfalso
              have hfe : c' = c ∧ f = s.nextFetchId := by simpa using hj'
              rw [hfe.2] at hs
              have := h.settledBound (s.nextFetchId, o) hs
              try dsimp only
              omega
  | settle k o =>
    rw [sfStep]
    cases hlook : alistLookup s.inFlightRequests k with
    | none => exact h
    | some fid =>
      try dsimp only
      have hfmem : (k, fid) ∈ s.inFlightRequests := alistLookup_mem hlook
      refine ⟨?_, ?_, ?_, h.joinedBound, ?_, h.ndJoined, ?_, ?_, ?_⟩
      · exact h.ndKeys.sublist (alistErase_map_fst_sublist s.inFlightRequests k)
      · exact h.ndFids.sublist ((List.filter_sublist s.inFlightRequests).map Prod.snd)
      · intro p hp
        rcases p with ⟨k', f'⟩
        exact h.ifBound (k', f') (mem_alistErase.mp hp).1
      · intro p hp
        rcases List.mem_append.mp hp with hp' | hp'
        · exact h.settledBound p hp'
        · have : p = (fid, o) := by simpa using hp'
          rw [this]
          exact h.ifBound (k, fid) hfmem
      · simp only [List.map_append]
        rw [List.nodup_append]
        refine ⟨h.ndSettled, by simp, ?_⟩
        intro a ha hmem
        rw [List.mem_singleton.mp hmem] at ha
        obtain ⟨p, hp, hps⟩ := List.mem_map.mp ha
        rcases p with ⟨f', o'⟩
        simp only at hps
        rw [hps] at hp
        exact h.ifNotSettled (k, fid) hfmem o' hp
      · intro p hp o' hset
        rcases p with ⟨k', f'⟩
        have hmem := mem_alistErase.mp hp
        rcases List.mem_append.mp hset with hset' | hset'
        · exact h.ifNotSettled (k', f') hmem.1 o' hset'
        · have hfe : f' = fid ∧ o' = o := by simpa using hset'
          have : (k', f') = (k, fid) :=
            pair_snd_unique hmem.1 hfmem h.ndFids (by simpa using hfe.1)
          exact hmem.2 (congrArg Prod.fst this)
      · intro c' o'
        constructor
        · intro hres
          rcases List.mem_append.mp hres with hres' | hres'
          · obtain ⟨f, hj, hs⟩ := (h.resultsSpec c' o').mp hres'
            exact ⟨f, hj, List.mem_append.mpr (Or.inl hs)⟩
          · obtain ⟨p, hp, hpe⟩ := List.mem_map.mp hres'
            have hpf := List.mem_filter.mp hp
            rcases p with ⟨cj, fj⟩
            simp only [Prod.mk.injEq] at hpe
            have hfj : fj = fid := by simpa using hpf.2
            refine ⟨fid, ?_, List.mem_append.mpr (Or.inr (by simp [← hpe.2]))⟩
            rw [← hpe.1, ← hfj]
            exact hpf.1
        · rintro ⟨f, hj, hs⟩
          rcases List.mem_append.mp hs with hs' | hs'
          · exact List.mem_append.mpr (Or.inl ((h.resultsSpec c' o').mpr ⟨f, hj, hs'⟩))
          · have hfe : f = fid ∧ o' = o := by simpa using hs'
            refine List.mem_append.mpr (Or.inr ?_)
            refine List.mem_map.mpr ⟨(c', f), ?_, by simp [hfe.2]⟩
            refine List.mem_filter.mpr ⟨hj, by simp [hfe.1]⟩

theorem sfInv_run (events : List SfEvent) : SfInv (sfRun events) := by
  rw [sfRun]
  have hgen : ∀ s, SfInv s → SfInv (events.foldl sfStep s) := by
    induction events with
    | nil => intro s hs; exact hs
    | cons e es ih =>
      intro s hs
      exact ih (sfStep s e) (sfInv_step s e hs)
  exact hgen {} sfInv_init

/-- C1: single flight per cache key. In every reachable state of the
single-flight machine: (1) the registry holds at most one entry per key;
(2) a caller arriving while a fetch for its key is in flight launches no new
upstream fetch and joins the registered fetch; (3) when a fetch settles, every
caller joined to it — launcher and joiners alike — receives the settled
outcome; (4) each caller receives at most one result, so launcher and joiners
observe the same payload/meta or the same error; (5) settlement removes the
registry entry for the key; (6) a registered fetch is not yet settled, so the
entry is removed exactly once, at settlement, whether the outcome is a success
or an error. -/
theorem single_flight_coalescing (events : List SfEvent) :
    ((sfRun events).inFlightRequests.map Prod.fst).Nodup
    ∧ (∀ c k fid, alistLookup (sfRun events).inFlightRequests k = some fid →
        (sfStep (sfRun events) (.arrive c k)).launched = (sfRun events).launched
        ∧ ((sfStep (sfRun events) (.arrive c k)).joined = (sfRun events).joined
           ∨ (sfStep (sfRun events) (.arrive c k)).joined
               = (sfRun events).joined ++ [(c, fid)]))
    ∧ (∀ c f o, (c, f) ∈ (sfRun events).joined → (f, o) ∈ (sfRun events).settled →
        (c, o) ∈ (sfRun events).results)
    ∧ (∀ c o o', (c, o) ∈ (sfRun events).results → (c, o') ∈ (sfRun events).results →
        o = o')
    ∧ (∀ k o, alistLookup (sfStep (sfRun events) (.settle k o)).inFlightRequests k = none)
    ∧ (∀ k fid, alistLookup (sfRun events).inFlightRequests k = some fid →
        ∀ o, (fid, o) ∉ (sfRun events).settled) := by
  have h := sfInv_run events
  refine ⟨h.ndKeys, ?_, ?_, ?_, ?_, ?_⟩
  · intro c k fid hlook
    rw [sfStep]
    by_cases hc : ((sfRun events).joined.map (fun p => p.1)).contains c = true
    · rw [if_pos hc]
      exact ⟨rfl, Or.inl rfl⟩
    · rw [if_neg hc]
      rw [hlook]
      exact ⟨rfl, Or.inr rfl⟩
  · intro c f o hj hs
    exact (h.resultsSpec c o).mpr ⟨f, hj, hs⟩
  · intro c o o' hr hr'
    obtain ⟨f, hj, hs⟩ := (h.resultsSpec c o).mp hr
    obtain ⟨f', hj', hs'⟩ := (h.resultsSpec c o').mp hr'
    have hf : f = f' := alist_key_unique hj hj' h.ndJoined
    rw [hf] at hs
    exact alist_key_unique hs hs' h.ndSettled
  · intro k o
    rw [sfStep]
    cases hlook : alistLookup (sfRun events).inFlightRequests k with
    | none => exact hlook
    | some fid =>
      dsimp only
      exact alistLookup_alistErase (sfRun events).inFlightRequests k
  · intro k fid hlook o hs
    exact h.ifNotSettled (k, fid) (alistLookup_mem hlook) o hs

/-- Witness for C1: a launcher (caller 0) and a joiner (caller 1) on the same
key both receive the settled error outcome. -/
theorem single_flight_coalescing_witness :
    (1, (.error requestFailedError : FetchOutcome))
      ∈ (sfRun [.arrive 0 "k", .arrive 1 "k",
          .settle "k" (.error requestFailedError)]).results :=
  (single_flight_coalescing
    [.arrive 0 "k", .arrive 1 "k", .settle "k" (.error requestFailedError)]).2.2.1
    1 0 (.error requestFailedError) (by decide) (by decide)

end CtaBus
